import Mathlib

/-!
# Cumulocity SmartREST agent: reporter replay buffer, request aggregation and integration handshake

Shallow embedding of

* `src/src/srreporter.cc` : `_insert` and the loop body of `SrReporter::func`,
* `src/examples/helloworld/integrate.cc` : `Integrate::integrate`,
* `src/include/srtypes.h` : `SrNews`, `SrOpBatch`, `SR_PRIO_BUF`, `SR_PRIO_XID`.

Conventions.

* `std::string` is a list of characters (`Str`); one `Char` stands for one `char`.
* `size_t` values are natural numbers, reduced modulo `2 ^ 64` where the source increments them.
* A computation that leaves defined behaviour (reading `front()` of an empty deque, erasing
  past the end of a deque, `substr` past the end, `1 << i` with `i ≥ 31`) yields `none`.
-/

namespace C8y

/-! ## Strings -/

/-- Byte strings of the C++ source (`std::string`). -/
abbrev Str := List Char

/-- The modulus of `size_t` arithmetic. -/
def SIZE_MOD : Nat := 2 ^ 64

/-- The constant `std::string::npos`, the largest `size_t`. -/
def npos : Nat := 2 ^ 64 - 1

/-- Scan of `std::string::find(char)`: index of the first `c` in `s`, counted from `i`. -/
def findFrom (c : Char) : Str → Nat → Nat
  | [], _ => npos
  | x :: xs, i => if x = c then i else findFrom c xs (i + 1)

/-- Model of `std::string::find(char)`: position of the first `c`, or `npos`. -/
def find (s : Str) (c : Char) : Nat := findFrom c s 0

/-- Model of `std::string::substr(pos, n)`: throws `std::out_of_range` when `pos > size()`. -/
def substr (s : Str) (pos n : Nat) : Option Str :=
  if pos ≤ s.length then some ((s.drop pos).take n) else none

/-- The literal `"15,"` that opens a context (template XID) line. -/
def ctxTag : Str := ['1', '5', ',']

/-- The test `ref.compare(0, 3, "15,") == 0`: the first three characters are `15,`. -/
def isCtx (ref : Str) : Bool := decide (ref.take 3 = ctxTag)

/-! ## `srtypes.h` -/

/-- The macro `SR_PRIO_BUF`. -/
def SR_PRIO_BUF : Nat := 1

/-- The macro `SR_PRIO_XID`. -/
def SR_PRIO_XID : Nat := 2

/-- A SmartREST request; `prio` is a `uint8_t` bit set. -/
structure SrNews where
  data : Str
  prio : Nat
deriving DecidableEq, Repr

/-- A SmartREST response body. -/
structure SrOpBatch where
  data : Str
deriving DecidableEq, Repr

/-! ## `_insert` (srreporter.cc, lines 8-22) -/

/-- The function `_insert(d, cap, s)` of `srreporter.cc`.  The result is `none` when the source
reads `d.front()` of an empty deque or erases `[begin, begin + 2)` of a deque with fewer than two
entries. -/
def _insert (d : List Str) (cap : Nat) (s : Str) : Option (List Str) :=
  if cap ≤ d.length then
    match d with
    | [] => none
    | ref :: rest =>
      if !isCtx ref then
        some (rest ++ [s])
      else
        match rest with
        | [] => none
        | _ :: d2 =>
          match d2 with
          | [] => some (d2 ++ [s])
          | f :: _ => if !isCtx f then some (ref :: d2 ++ [s]) else some (d2 ++ [s])
  else
    some (d ++ [s])

/-! ## Collaborators of the reporter that are not part of the embedded sources -/

/-- Modelled from the spec: the transport `SrNetHttp` (section 6, `post(body)` yields a result and
a response body, `clear()` resets the buffered response).  The `k`-th call of `post` returns the
integer `(net k).1` and leaves `(net k).2` as `response()`; `posted` records the bodies posted so
far, in order. -/
structure SrNetHttp where
  net : Nat → Int × Str
  calls : Nat
  resp : Str
  posted : List Str

/-- One call `http.post(body)`: the return value and the transport afterwards. -/
def SrNetHttp.post (h : SrNetHttp) (body : Str) : Int × SrNetHttp :=
  ((h.net h.calls).1,
    { h with calls := h.calls + 1, resp := (h.net h.calls).2, posted := h.posted ++ [body] })

/-- The call `http.clear()`. -/
def SrNetHttp.clear (h : SrNetHttp) : SrNetHttp := { h with resp := [] }

/-- A fresh transport talking to the server behaviour `net`. -/
def SrNetHttp.init (net : Nat → Int × Str) : SrNetHttp :=
  { net := net, calls := 0, resp := [], posted := [] }

/-- The state of an `SrReporter` that `SrReporter::func` reads and writes.

* `out` is the egress queue (modelled from the spec: a FIFO whose timed `get` yields the oldest
  item with `Q_OK`, or a timeout when it is empty);
* `inq` lists the batches `put` on the ingress queue so far;
* `slept` lists the arguments of the `::sleep` calls so far;
* `sleeping` is the flag as read during the cycle. -/
structure SrReporter where
  xid : Str
  cap : Nat
  buffer : List Str
  sleeping : Bool
  out : List SrNews
  inq : List SrOpBatch
  http : SrNetHttp
  slept : List Nat

/-! ## The loop body of `SrReporter::func` (srreporter.cc, lines 44-86) -/

/-- The locals `s`, `myxid` and the member `buffer` threaded through the aggregation loop. -/
structure Agg where
  s : Str
  myxid : Str
  buf : List Str
deriving DecidableEq, Repr

/-- Lines 45-48: `s.clear(); if (!sleeping) for (item : buf) s += item + "\n";`. -/
def replayText (sleeping : Bool) (buf : List Str) : Str :=
  if !sleeping then (buf.map fun item => item ++ ['\n']).flatten else []

/-- Lines 55-60: the effective XID `cxid` and the offset `pos` of the payload in `data`. -/
def splitXid (xid : Str) (e : SrNews) : Option (Str × Nat) :=
  if e.prio &&& SR_PRIO_XID ≠ 0 then
    (substr e.data 0 (find e.data ',')).map fun cxid => (cxid, (find e.data ',' + 1) % SIZE_MOD)
  else
    some (xid, 0)

/-- Lines 61-66: on a change of XID, emit the line `15,<cxid>` and buffer it when requested. -/
def switchXid (cap : Nat) (e : SrNews) (cxid : Str) (st : Agg) : Option Agg :=
  if cxid ≠ st.myxid then
    (if e.prio &&& SR_PRIO_BUF ≠ 0 then _insert st.buf cap (ctxTag ++ cxid) else some st.buf).map
      fun b => { s := st.s ++ (ctxTag ++ cxid ++ ['\n']), myxid := cxid, buf := b }
  else
    some st

/-- Lines 67-69: emit the payload line and buffer it when requested. -/
def emitData (cap : Nat) (e : SrNews) (pos : Nat) (st : Agg) : Option Agg :=
  (substr e.data pos npos).bind fun payload =>
    (if e.prio &&& SR_PRIO_BUF ≠ 0 then _insert st.buf cap payload else some st.buf).map
      fun b => { s := st.s ++ (payload ++ ['\n']), myxid := st.myxid, buf := b }

/-- Lines 54-69: one iteration of the aggregation loop for the dequeued request `e`. -/
def aggStep (xid : Str) (cap : Nat) (e : SrNews) (st : Agg) : Option Agg :=
  (splitXid xid e).bind fun p =>
    (switchXid cap e p.1 st).bind fun st1 => emitData cap e p.2 st1

/-- Lines 51-70: `for (j = 0; j < SR_REPORTER_NUM; ++j)`; `n` is the number of iterations left
and `q` the egress queue; the loop breaks when `get` does not return `Q_OK`. -/
def aggregate (xid : Str) (cap : Nat) : Nat → List SrNews → Agg → Option (Agg × List SrNews)
  | 0, q, st => some (st, q)
  | _ + 1, [], st => some (st, [])
  | n + 1, e :: q, st => (aggStep xid cap e st).bind fun st1 => aggregate xid cap n q st1

/-- The expression `1 << i` of line 77, an `int`: defined for `i < 31`. -/
def shl1 (i : Nat) : Option Nat := if i < 31 then some (2 ^ i) else none

/-- Lines 75-78: `for (i = 0; c < 0 && i < SR_REPORTER_RETRIES; ++i, c = post(s)) sleep(1 << i)`.
The first argument is `SR_REPORTER_RETRIES - i`, the number of retries left. -/
def retryLoop (s : Str) : Nat → Nat → Int → SrNetHttp → List Nat → Option (Int × SrNetHttp × List Nat)
  | 0, _, c, h, sl => some (c, h, sl)
  | n + 1, i, c, h, sl =>
    if c < 0 then
      (shl1 i).bind fun secs => retryLoop s n (i + 1) (h.post s).1 (h.post s).2 (sl ++ [secs])
    else
      some (c, h, sl)

/-- Lines 45-70: the batch `s` and the buffer when the aggregation loop is left. -/
def gather (NUM : Nat) (rep : SrReporter) : Option (Agg × List SrNews) :=
  aggregate rep.xid rep.cap NUM rep.out
    { s := replayText rep.sleeping rep.buffer, myxid := [], buf := rep.buffer }

/-- The batch text `s` built by one cycle (the value of `s` at line 71). -/
def batch (NUM : Nat) (rep : SrReporter) : Option Str := (gather NUM rep).map fun r => r.1.s

/-- Lines 79-85: the end of a cycle that posted, given the last return value `c`. -/
def finish (rep : SrReporter) (st : Agg) (q : List SrNews) (c : Int) (h : SrNetHttp)
    (sl : List Nat) : SrReporter :=
  if 0 ≤ c then
    { rep with
      buffer := [], out := q, http := h.clear, slept := sl,
      inq := if h.resp ≠ [] then rep.inq ++ [⟨h.resp⟩] else rep.inq }
  else
    { rep with buffer := st.buf, out := q, http := h.clear, slept := sl }

/-- One pass through the body of `while (true)` in `SrReporter::func`, with `NUM` for
`SR_REPORTER_NUM` and `RETRIES` for `SR_REPORTER_RETRIES`. -/
def cycle (NUM RETRIES : Nat) (rep : SrReporter) : Option SrReporter :=
  (gather NUM rep).bind fun r =>
    if rep.sleeping || decide (r.1.s = []) then
      some { rep with buffer := r.1.buf, out := r.2 }
    else
      (retryLoop r.1.s RETRIES 0 (rep.http.post r.1.s).1 (rep.http.post r.1.s).2 rep.slept).map
        fun t => finish rep r.1 r.2 t.1 t.2.1 t.2.2

/-! ## `Integrate::integrate` (examples/helloworld/integrate.cc) -/

/-- An `SrRecord`: the fields of one response line, each a pair of a token type and its text
(the source reads only `.second`, the text). -/
abbrev SrRecord := List (Nat × Str)

/-- The members `xid` and `id` that `Integrate::integrate` assigns. -/
structure Integrate where
  xid : Str
  id : Str
deriving DecidableEq, Repr

/-- The test `r.size() && r[0].second == code`. -/
def headIs (r : SrRecord) (code : Str) : Bool :=
  match r with
  | [] => false
  | f :: _ => decide (f.2 = code)

/-- The test `r.size() == n && r[0].second == code`. -/
def shapeIs (r : SrRecord) (n : Nat) (code : Str) : Bool :=
  decide (r.length = n) && headIs r code

/-- The expression `r[i].second`. -/
def field (r : SrRecord) (i : Nat) : Str := (r.getD i (0, [])).2

/-- The literal `"40"`. -/
def code40 : Str := ['4', '0']
/-- The literal `"20"`. -/
def code20 : Str := ['2', '0']
/-- The literal `"50"`. -/
def code50 : Str := ['5', '0']
/-- The literal `"800"`. -/
def code800 : Str := ['8', '0', '0']
/-- The literal `"801"`. -/
def code801 : Str := ['8', '0', '1']
/-- The literal `"301"`. -/
def req301 : Str := ['3', '0', '1']
/-- The string `"300," + agent.deviceID()`. -/
def req300 (deviceID : Str) : Str := ['3', '0', '0', ','] ++ deviceID
/-- The string `"302," + id + "," + agent.deviceID()`. -/
def req302 (id deviceID : Str) : Str := ['3', '0', '2', ','] ++ id ++ [','] ++ deviceID

/-- Lines 30-46: the record `r` answers `300,<deviceID>`; `self` already holds the new `xid`. -/
def integrateObject (lexer : Str → SrRecord) (deviceID : Str) (self : Integrate) (h : SrNetHttp)
    (r : SrRecord) : Int × Integrate × SrNetHttp :=
  if headIs r code50 then
    let p := h.clear.post req301
    if p.1 ≤ 0 then (-1, self, p.2)
    else
      let r1 := lexer p.2.resp
      if shapeIs r1 3 code801 then
        let self1 : Integrate := { self with id := field r1 2 }
        let p1 := p.2.post (req302 self1.id deviceID)
        if p1.1 ≤ 0 then (-1, self1, p1.2) else (0, self1, p1.2)
      else (-1, self, p.2)
  else if shapeIs r 3 code800 then (0, { self with id := field r 2 }, h)
  else (-1, self, h)

/-- Lines 22-48: the record `r` was read after the probe (or after the template post). -/
def integrateXid (lexer : Str → SrRecord) (deviceID : Str) (self : Integrate) (h : SrNetHttp)
    (r : SrRecord) : Int × Integrate × SrNetHttp :=
  if shapeIs r 2 code20 then
    let self1 : Integrate := { self with xid := field r 1 }
    let p := h.clear.post (req300 deviceID)
    if p.1 ≤ 0 then (-1, self1, p.2)
    else integrateObject lexer deviceID self1 p.2 (lexer p.2.resp)
  else (-1, self, h)

/-- The method `Integrate::integrate(agent, srv, srt)`: the return value, the object afterwards
and the transport afterwards (whose `posted` lists the request bodies).  `lexer resp` is the first
record of the response body `resp` (`SmartRest(resp).next()`, the tokenizer being an external
collaborator), `net` the behaviour of the server and `deviceID` is `agent.deviceID()`. -/
def integrate (lexer : Str → SrRecord) (net : Nat → Int × Str) (deviceID srt : Str)
    (self : Integrate) : Int × Integrate × SrNetHttp :=
  let p := (SrNetHttp.init net).post []
  if p.1 < 0 then (-1, self, p.2)
  else
    let r := lexer p.2.resp
    if headIs r code40 then
      let p1 := p.2.clear.post srt
      if p1.1 ≤ 0 then (-1, self, p1.2)
      else integrateXid lexer deviceID self p1.2 (lexer p1.2.resp)
    else integrateXid lexer deviceID self p.2 r

/-! ## Derived descriptions of one aggregation step -/

/-- The value of `cxid` at line 61 for the request `e`. -/
def cxidOf (xid : Str) (e : SrNews) : Str :=
  if e.prio &&& SR_PRIO_XID ≠ 0 then e.data.take (find e.data ',') else xid

/-- The value of `pos` at line 67 for the request `e`. -/
def posOf (e : SrNews) : Nat :=
  if e.prio &&& SR_PRIO_XID ≠ 0 then (find e.data ',' + 1) % SIZE_MOD else 0

/-- The value of `data.substr(pos)` at lines 67 and 69. -/
def payloadOf (e : SrNews) : Str := (e.data.drop (posOf e)).take npos

/-- The lines one iteration appends to `s` when the previous XID is `mx`. -/
def stepLines (xid mx : Str) (e : SrNews) : List Str :=
  (if cxidOf xid e ≠ mx then [ctxTag ++ cxidOf xid e] else []) ++ [payloadOf e]

/-- The lines the iterations for `es` append to `s`, starting with `myxid = mx`. -/
def msgLines (xid : Str) : Str → List SrNews → List Str
  | _, [] => []
  | mx, e :: es => stepLines xid mx e ++ msgLines xid (cxidOf xid e) es

/-- The lines the iterations for `es` pass to `_insert`, starting with `myxid = mx`. -/
def bufLines (xid : Str) : Str → List SrNews → List Str
  | _, [] => []
  | mx, e :: es =>
    (if e.prio &&& SR_PRIO_BUF ≠ 0 then stepLines xid mx e else []) ++ bufLines xid (cxidOf xid e) es

/-- The value of `myxid` after the iterations for `es`. -/
def lastXid (xid : Str) : Str → List SrNews → Str
  | mx, [] => mx
  | _, e :: es => lastXid xid (cxidOf xid e) es

/-- Text of a list of lines, each followed by a newline. -/
def textOf (ls : List Str) : Str := (ls.map fun item => item ++ ['\n']).flatten

/-- Successive calls of `_insert` for the lines `ls`. -/
def insertAll (cap : Nat) : List Str → List Str → Option (List Str)
  | b, [] => some b
  | b, l :: ls => (_insert b cap l).bind fun b1 => insertAll cap b1 ls

/-- The transport after `m` further calls `post(s)`. -/
def postN (s : Str) : Nat → SrNetHttp → SrNetHttp
  | 0, h => h
  | m + 1, h => postN s m (h.post s).2

/-- The return value of the latest of `m` further calls of `post`, `c` being the one before. -/
def lastCode (c : Int) (h : SrNetHttp) (m : Nat) : Int :=
  if m = 0 then c else (h.net (h.calls + m - 1)).1

/-- The doubling delays `2 ^ i, 2 ^ (i + 1), ...`, `m` of them. -/
def backoff : Nat → Nat → List Nat
  | _, 0 => []
  | i, m + 1 => 2 ^ i :: backoff (i + 1) m

/-! ## The batch in the words of the specification -/

/-- Effective context id as the specification words it: the device XID, or, when `SR_PRIO_XID`
is set, the text before the first comma of the data. -/
def specCtx (xid : Str) (e : SrNews) : Str :=
  if e.prio &&& SR_PRIO_XID ≠ 0 then e.data.takeWhile (fun ch => ch != ',') else xid

/-- Payload line as the specification words it: the data, or, when `SR_PRIO_XID` is set, the text
after the first comma. -/
def specPayload (e : SrNews) : Str :=
  if e.prio &&& SR_PRIO_XID ≠ 0 then (e.data.dropWhile (fun ch => ch != ',')).drop 1 else e.data

/-- Batch text as the specification words it: in queue order, for each message the line
`15,<ctx>` iff its context id differs from the previous one `prev`, then its payload line. -/
def specBatch (xid : Str) : Str → List SrNews → Str
  | _, [] => []
  | prev, e :: es =>
    (if specCtx xid e ≠ prev then ctxTag ++ specCtx xid e ++ ['\n'] else [])
      ++ (specPayload e ++ ['\n']) ++ specBatch xid (specCtx xid e) es

/-! ## Concrete inputs used to exercise the theorems -/

/-- A server that refuses every post. -/
def downNet : Nat → Int × Str := fun _ => (-1, [])

/-- A reporter with an empty buffer of capacity 10, two queued requests (the first one tagged
`SR_PRIO_BUF`) and a server that is down. -/
def downRep : SrReporter :=
  { xid := ['X'], cap := 10, buffer := [], sleeping := false,
    out := [⟨['A'], SR_PRIO_BUF⟩, ⟨['B'], 0⟩], inq := [],
    http := SrNetHttp.init downNet, slept := [] }

/-- A reporter for device XID `X` with the queued requests `A`, `B` and, under the alternate
XID `Y`, `C`. -/
def ctxRep : SrReporter :=
  { xid := ['X'], cap := 1000, buffer := [], sleeping := false,
    out := [⟨['A'], 0⟩, ⟨['B'], 0⟩, ⟨['Y', ',', 'C'], SR_PRIO_XID⟩], inq := [],
    http := SrNetHttp.init downNet, slept := [] }

/-- A server that refuses the first two posts and then answers `ok`. -/
def flakyNet : Nat → Int × Str := fun k => if k < 2 then (-1, []) else (2, ['o', 'k'])

/-- A reporter with one queued request and the server `flakyNet`. -/
def flakyRep : SrReporter :=
  { xid := ['X'], cap := 10, buffer := [], sleeping := false,
    out := [⟨['A'], 0⟩], inq := [],
    http := SrNetHttp.init flakyNet, slept := [] }

/-- The batch state of `flakyRep` after aggregation. -/
def flakyAgg : Agg := { s := "15,X\nA\n".toList, myxid := ['X'], buf := [] }

/-- Fields of a line, split at the commas. -/
def splitComma : Str → List Str
  | [] => [[]]
  | c :: cs =>
    if c = ',' then [] :: splitComma cs
    else
      match splitComma cs with
      | [] => [[c]]
      | f :: fs => (c :: f) :: fs

/-- A tokenizer for one-line responses: the comma-separated fields, none for an empty body. -/
def lineLexer (s : Str) : SrRecord :=
  if s = [] then [] else (splitComma s).map fun f => (0, f)

/-- Scenario (a): `40`, then `20,XID1`, then `800,0,OBJ1`. -/
def netA : Nat → Int × Str := fun k =>
  if k = 0 then (2, "40".toList)
  else if k = 1 then (7, "20,XID1".toList)
  else (10, "800,0,OBJ1".toList)

/-- Scenario (b): `20,XID2`, then `50`, then `801,0,OBJ2`, then an acknowledgement. -/
def netB : Nat → Int × Str := fun k =>
  if k = 0 then (7, "20,XID2".toList)
  else if k = 1 then (2, "50".toList)
  else if k = 2 then (10, "801,0,OBJ2".toList)
  else (2, "ok".toList)

/-- Scenario (c): `20,XID3`, then the unrecognised code `99`. -/
def netC : Nat → Int × Str := fun k =>
  if k = 0 then (7, "20,XID3".toList) else (2, "99".toList)

/-- The record read after the probe or, when the probe is answered by code `40`, after the
template post. -/
def xidRecord (lexer : Str → SrRecord) (net : Nat → Int × Str) : SrRecord :=
  if headIs (lexer (net 0).2) code40 then lexer (net 1).2 else lexer (net 0).2

/-- The handshake fails before an XID is accepted: the probe post returns `< 0`, or the template
post returns `≤ 0`, or the record read next is not a two-field record with first field `20`. -/
def earlyFail (lexer : Str → SrRecord) (net : Nat → Int × Str) : Bool :=
  decide ((net 0).1 < 0) || (headIs (lexer (net 0).2) code40 && decide ((net 1).1 ≤ 0))
    || !shapeIs (xidRecord lexer net) 2 code20

/-- A quiesced reporter: replay buffer `["15,X", "Q"]`, queued requests `A` (tagged
`SR_PRIO_BUF`) and `B`. -/
def idleRep : SrReporter :=
  { xid := ['X'], cap := 10, buffer := [ctxTag ++ ['X'], ['Q']], sleeping := true,
    out := [⟨['A'], SR_PRIO_BUF⟩, ⟨['B'], 0⟩], inq := [],
    http := SrNetHttp.init downNet, slept := [] }

/-- A reporter whose first queued request `A` is not tagged `SR_PRIO_BUF` and whose second
request `B`, of the same XID, is. -/
def orphanRep : SrReporter :=
  { xid := ['X'], cap := 1000, buffer := [], sleeping := false,
    out := [⟨['A'], 0⟩, ⟨['B'], SR_PRIO_BUF⟩], inq := [],
    http := SrNetHttp.init downNet, slept := [] }

/-- The lines of a batch text: the pieces between newlines (a last piece that no newline
ends is kept when it is not empty). -/
def splitLines : Str → List Str
  | [] => []
  | c :: cs =>
    if c = '\n' then [] :: splitLines cs
    else
      match splitLines cs with
      | [] => [[c]]
      | l :: ls => (c :: l) :: ls

/-- The last context line of a list of lines, if there is one. -/
def lastCtx (ls : List Str) : Option Str := (ls.filter isCtx).getLast?

/-- A reporter with an empty device XID, the replay buffer `["15,Z", "Q"]` and the queued
request `A`. -/
def noXidRep : SrReporter :=
  { xid := [], cap := 1000, buffer := [ctxTag ++ ['Z'], ['Q']], sleeping := false,
    out := [⟨['A'], 0⟩], inq := [],
    http := SrNetHttp.init downNet, slept := [] }

/-- The bodies posted up to the moment the XID record is read: the empty probe and, when the
probe is answered by code `40`, the template. -/
def probeBodies (lexer : Str → SrRecord) (net : Nat → Int × Str) (srt : Str) : List Str :=
  if headIs (lexer (net 0).2) code40 then [[], srt] else [[]]

/-- The number of posts made up to the moment the XID record is read. -/
def xidCalls (lexer : Str → SrRecord) (net : Nat → Int × Str) : Nat :=
  if headIs (lexer (net 0).2) code40 then 2 else 1

/-! ## Basic facts -/

theorem textOf_append (a b : List Str) : textOf (a ++ b) = textOf a ++ textOf b := by
  simp [textOf]

theorem findFrom_bounds (c : Char) (s : Str) (i : Nat) :
    findFrom c s i = npos ∨ (i ≤ findFrom c s i ∧ findFrom c s i < i + s.length) := by
  induction s generalizing i with
  | nil => left; rfl
  | cons x xs ih =>
    unfold findFrom
    by_cases h : x = c
    · right; simp [h]
    · simp only [h, if_false]
      rcases ih (i + 1) with h1 | ⟨h1, h2⟩
      · left; exact h1
      · right; simp only [List.length_cons]; omega

theorem find_bounds (s : Str) (c : Char) : find s c = npos ∨ find s c < s.length := by
  rcases findFrom_bounds c s 0 with h | ⟨_, h⟩
  · left; exact h
  · right; simpa [find] using h

theorem posOf_le (e : SrNews) : posOf e ≤ e.data.length := by
  unfold posOf
  split
  · rcases find_bounds e.data ',' with h | h
    · rw [h]; simp [npos, SIZE_MOD]
    · exact le_trans (Nat.mod_le _ _) h
  · exact Nat.zero_le _

theorem splitXid_eq (xid : Str) (e : SrNews) : splitXid xid e = some (cxidOf xid e, posOf e) := by
  unfold splitXid cxidOf posOf substr
  split <;> simp

theorem substr_payload (e : SrNews) : substr e.data (posOf e) npos = some (payloadOf e) := by
  unfold substr payloadOf
  simp [posOf_le e]

/-! ## Facts about `_insert` -/

theorem insert_below (d : List Str) (cap : Nat) (s : Str) (h : d.length < cap) :
    _insert d cap s = some (d ++ [s]) := by
  unfold _insert
  simp [Nat.not_le.mpr h]

theorem insert_at_cap (d : List Str) (cap : Nat) (s : Str) (hcap : 2 ≤ cap)
    (h : cap ≤ d.length) :
    ∃ ref x d2, d = ref :: x :: d2 ∧
      _insert d cap s =
        if !isCtx ref then some (x :: d2 ++ [s])
        else if d2 ≠ [] ∧ (d2.head?.map isCtx) = some false then some (ref :: d2 ++ [s])
        else some (d2 ++ [s]) := by
  match d, h with
  | [], h => simp at h; omega
  | [_], h => simp at h; omega
  | ref :: x :: d2, h =>
    refine ⟨ref, x, d2, rfl, ?_⟩
    unfold _insert
    simp only [h, if_true]
    cases hr : isCtx ref
    · simp
    · cases d2 with
      | nil => simp
      | cons f fs => cases hf : isCtx f <;> simp [hf]

theorem insert_isSome (d : List Str) (cap : Nat) (s : Str) (hcap : 2 ≤ cap) :
    (_insert d cap s).isSome = true := by
  by_cases h : cap ≤ d.length
  · obtain ⟨ref, x, d2, _, he⟩ := insert_at_cap d cap s hcap h
    rw [he]
    split
    · rfl
    · split <;> rfl
  · rw [insert_below d cap s (Nat.not_le.mp h)]; rfl

theorem insert_length_le (d : List Str) (cap : Nat) (s : Str) (hcap : 2 ≤ cap)
    (hd : d.length ≤ cap) (d1 : List Str) (h : _insert d cap s = some d1) : d1.length ≤ cap := by
  by_cases hc : cap ≤ d.length
  · obtain ⟨ref, x, d2, hdd, he⟩ := insert_at_cap d cap s hcap hc
    rw [he] at h
    subst hdd
    simp only [List.length_cons] at hd
    split at h
    · cases h; simp; omega
    · split at h
      · cases h; simp; omega
      · cases h; simp; omega
  · rw [insert_below d cap s (Nat.not_le.mp hc)] at h
    cases h; simp; omega

/-! ## Facts about sequences of `_insert` calls -/

theorem insertAll_append (cap : Nat) (b : List Str) (l1 l2 : List Str) :
    insertAll cap b (l1 ++ l2) = (insertAll cap b l1).bind fun b1 => insertAll cap b1 l2 := by
  induction l1 generalizing b with
  | nil => simp [insertAll]
  | cons l ls ih =>
    simp only [List.cons_append, insertAll]
    cases _insert b cap l with
    | none => simp
    | some b1 => simpa using ih b1

theorem insertAll_below (cap : Nat) (b ls : List Str) (h : b.length + ls.length ≤ cap) :
    insertAll cap b ls = some (b ++ ls) := by
  induction ls generalizing b with
  | nil => simp [insertAll]
  | cons l ls ih =>
    simp only [List.length_cons] at h
    simp only [insertAll]
    rw [insert_below b cap l (by omega)]
    simp only [Option.some_bind]
    rw [ih (b ++ [l]) (by simp; omega)]
    simp

theorem insertAll_isSome (cap : Nat) (hcap : 2 ≤ cap) (b ls : List Str) :
    (insertAll cap b ls).isSome = true := by
  induction ls generalizing b with
  | nil => simp [insertAll]
  | cons l ls ih =>
    simp only [insertAll]
    have h := insert_isSome b cap l hcap
    obtain ⟨b1, hb1⟩ := Option.isSome_iff_exists.mp h
    rw [hb1]
    simpa using ih b1

theorem insertAll_length_le (cap : Nat) (hcap : 2 ≤ cap) (b ls : List Str) (hb : b.length ≤ cap)
    (b1 : List Str) (h : insertAll cap b ls = some b1) : b1.length ≤ cap := by
  induction ls generalizing b with
  | nil => simp [insertAll] at h; subst h; exact hb
  | cons l ls ih =>
    simp only [insertAll] at h
    cases hi : _insert b cap l with
    | none => rw [hi] at h; simp at h
    | some b2 =>
      rw [hi] at h
      exact ih b2 (insert_length_le b cap l hcap hb b2 hi) (by simpa using h)

/-! ## The aggregation loop in closed form -/

theorem aggStep_eq (xid : Str) (cap : Nat) (e : SrNews) (st : Agg) :
    aggStep xid cap e st =
      (insertAll cap st.buf (if e.prio &&& SR_PRIO_BUF ≠ 0 then stepLines xid st.myxid e else [])).map
        fun b => { s := st.s ++ textOf (stepLines xid st.myxid e), myxid := cxidOf xid e, buf := b } := by
  unfold aggStep
  rw [splitXid_eq]
  simp only [Option.some_bind]
  unfold switchXid emitData
  rw [substr_payload]
  simp only [Option.some_bind, stepLines]
  by_cases hx : cxidOf xid e = st.myxid
  · by_cases hb : e.prio &&& SR_PRIO_BUF = 0
    · simp [hx, hb, insertAll, textOf]
    · simp only [hx, hb, ne_eq, not_true_eq_false, if_false, not_false_eq_true, if_true,
        Option.some_bind, List.nil_append, insertAll]
      cases _insert st.buf cap (payloadOf e) <;> simp [textOf]
  · by_cases hb : e.prio &&& SR_PRIO_BUF = 0
    · simp [hx, hb, insertAll, textOf]
    · simp only [hx, hb, ne_eq, not_false_eq_true, if_true, List.singleton_append, insertAll]
      cases _insert st.buf cap (ctxTag ++ cxidOf xid e) with
      | none => simp
      | some b1 =>
        simp only [Option.map_some', Option.some_bind]
        cases _insert b1 cap (payloadOf e) <;> simp [textOf]

theorem aggregate_eq (xid : Str) (cap : Nat) (n : Nat) (q : List SrNews) (st : Agg) :
    aggregate xid cap n q st =
      (insertAll cap st.buf (bufLines xid st.myxid (q.take n))).map fun b =>
        (({ s := st.s ++ textOf (msgLines xid st.myxid (q.take n)),
            myxid := lastXid xid st.myxid (q.take n), buf := b } : Agg), q.drop n) := by
  induction n generalizing q st with
  | zero => simp [aggregate, insertAll, bufLines, msgLines, lastXid, textOf]
  | succ n ih =>
    cases q with
    | nil => simp [aggregate, insertAll, bufLines, msgLines, lastXid, textOf]
    | cons e q =>
      simp only [aggregate, List.take_succ_cons, List.drop_succ_cons, bufLines, msgLines, lastXid]
      rw [aggStep_eq, insertAll_append, textOf_append]
      cases insertAll cap st.buf (if e.prio &&& SR_PRIO_BUF ≠ 0 then stepLines xid st.myxid e else []) with
      | none => simp
      | some b1 =>
        simp only [Option.map_some', Option.some_bind]
        rw [ih]
        simp [List.append_assoc]

/-! ## The retry loop in closed form -/

theorem postN_fields (s : Str) (m : Nat) (h : SrNetHttp) :
    (postN s m h).net = h.net ∧ (postN s m h).calls = h.calls + m ∧
      (postN s m h).posted = h.posted ++ List.replicate m s ∧
      (postN s m h).resp = if m = 0 then h.resp else (h.net (h.calls + m - 1)).2 := by
  induction m generalizing h with
  | zero => simp [postN]
  | succ m ih =>
    obtain ⟨h1, h2, h3, h4⟩ := ih (h.post s).2
    simp only [postN]
    refine ⟨by rw [h1]; rfl, by rw [h2]; simp [SrNetHttp.post]; omega, ?_, ?_⟩
    · rw [h3]; simp [SrNetHttp.post, List.replicate_succ]
    · rw [h4]
      cases m with
      | zero => simp [SrNetHttp.post]
      | succ k =>
        simp only [SrNetHttp.post]
        have e : h.calls + 1 + (k + 1) - 1 = h.calls + (k + 1 + 1) - 1 := by omega
        simp [e]

theorem backoff_eq (i m : Nat) : backoff i m = (List.range m).map fun j => 2 ^ (i + j) := by
  induction m generalizing i with
  | zero => rfl
  | succ m ih =>
    rw [backoff, ih, List.range_succ_eq_map]
    simp only [List.map_cons, List.map_map, Nat.add_zero]
    congr 1
    apply List.map_congr_left
    intro j _
    simp only [Function.comp, Nat.succ_eq_add_one]
    congr 1
    omega

theorem backoff_length (i m : Nat) : (backoff i m).length = m := by
  induction m generalizing i with
  | zero => rfl
  | succ m ih => simp [backoff, ih]

theorem backoff_sum (i m : Nat) : (backoff i m).sum + 2 ^ i = 2 ^ (i + m) := by
  induction m generalizing i with
  | zero => simp [backoff]
  | succ m ih =>
    have h := ih (i + 1)
    have e : i + 1 + m = i + (m + 1) := by omega
    rw [e] at h
    simp only [backoff, List.sum_cons]
    have p : 2 ^ (i + 1) = 2 ^ i + 2 ^ i := by rw [pow_succ]; omega
    omega

theorem retry_run (s : Str) (m : Nat) :
    ∀ (n i : Nat) (c : Int) (h : SrNetHttp) (sl : List Nat), m ≤ n → i + m ≤ 31 →
      (∀ j, j < m → lastCode c h j < 0) → (m < n → 0 ≤ lastCode c h m) →
      retryLoop s n i c h sl = some (lastCode c h m, postN s m h, sl ++ backoff i m) := by
  induction m with
  | zero =>
    intro n i c h sl _ _ _ hok
    cases n with
    | zero => simp [retryLoop, lastCode, postN, backoff]
    | succ n =>
      have hc : ¬ c < 0 := by
        have := hok (Nat.succ_pos n)
        simp only [lastCode, if_true] at this
        omega
      simp [retryLoop, hc, lastCode, postN, backoff]
  | succ m ih =>
    intro n i c h sl hmn him hfail hok
    cases n with
    | zero => omega
    | succ n =>
      have hc : c < 0 := by simpa [lastCode] using hfail 0 (Nat.succ_pos m)
      have hi : i < 31 := by omega
      have key : ∀ j, lastCode (h.post s).1 (h.post s).2 j = lastCode c h (j + 1) := by
        intro j
        cases j with
        | zero => simp [lastCode, SrNetHttp.post]
        | succ j =>
          simp only [lastCode, SrNetHttp.post, Nat.succ_ne_zero, if_false]
          have e : h.calls + 1 + (j + 1) - 1 = h.calls + (j + 1 + 1) - 1 := by omega
          rw [e]
      have step := ih n (i + 1) (h.post s).1 (h.post s).2 (sl ++ [2 ^ i]) (by omega) (by omega)
        (fun j hj => by rw [key]; exact hfail (j + 1) (by omega))
        (fun hlt => by rw [key]; exact hok (by omega))
      simp only [retryLoop, hc, if_true, shl1, hi, Option.some_bind]
      rw [step, key]
      simp [postN, backoff]

/-! ## One cycle in closed form -/

theorem gather_eq (NUM : Nat) (rep : SrReporter) :
    gather NUM rep =
      (insertAll rep.cap rep.buffer (bufLines rep.xid [] (rep.out.take NUM))).map fun b =>
        (({ s := replayText rep.sleeping rep.buffer ++ textOf (msgLines rep.xid [] (rep.out.take NUM)),
            myxid := lastXid rep.xid [] (rep.out.take NUM), buf := b } : Agg), rep.out.drop NUM) := by
  unfold gather
  rw [aggregate_eq]

theorem cycle_idle (NUM R : Nat) (rep : SrReporter) (st : Agg) (q : List SrNews)
    (hg : gather NUM rep = some (st, q)) (h : rep.sleeping = true ∨ st.s = []) :
    cycle NUM R rep = some { rep with buffer := st.buf, out := q } := by
  unfold cycle
  rw [hg]
  rcases h with h | h <;> simp [h]

theorem cycle_run (NUM R m : Nat) (rep : SrReporter) (st : Agg) (q : List SrNews)
    (hs : rep.sleeping = false) (hg : gather NUM rep = some (st, q)) (hne : st.s ≠ [])
    (hm : m ≤ R) (h31 : m ≤ 31)
    (hfail : ∀ j, j < m → (rep.http.net (rep.http.calls + j)).1 < 0)
    (hok : m < R → 0 ≤ (rep.http.net (rep.http.calls + m)).1) :
    cycle NUM R rep =
      some (finish rep st q (rep.http.net (rep.http.calls + m)).1 (postN st.s (m + 1) rep.http)
        (rep.slept ++ backoff 0 m)) := by
  have key : ∀ j, lastCode (rep.http.post st.s).1 (rep.http.post st.s).2 j
      = (rep.http.net (rep.http.calls + j)).1 := by
    intro j
    cases j with
    | zero => simp [lastCode, SrNetHttp.post]
    | succ j =>
      simp only [lastCode, SrNetHttp.post, Nat.succ_ne_zero, if_false]
      have e : rep.http.calls + 1 + (j + 1) - 1 = rep.http.calls + (j + 1) := by omega
      rw [e]
  have run := retry_run st.s m R 0 (rep.http.post st.s).1 (rep.http.post st.s).2 rep.slept hm
    (by omega) (fun j hj => by rw [key]; exact hfail j hj) (fun hlt => by rw [key]; exact hok hlt)
  unfold cycle
  rw [hg]
  simp only [Option.some_bind, hs, hne, Bool.false_or, decide_False, Bool.false_eq_true, if_false]
  rw [run, key]
  simp [postN]

theorem payload_mem_bufLines (xid : Str) (es : List SrNews) :
    ∀ (mx : Str) (e : SrNews), e ∈ es → e.prio &&& SR_PRIO_BUF ≠ 0 →
      payloadOf e ∈ bufLines xid mx es := by
  induction es with
  | nil => intro mx e h; simp at h
  | cons a as ih =>
    intro mx e he hb
    rcases List.mem_cons.mp he with h | h
    · subst h
      simp [bufLines, hb, stepLines]
    · simp only [bufLines, List.mem_append]
      right
      exact ih _ e h hb

/-! ## C1 : replay after a failed send -/

/-- C1. A cycle that is not sleeping and whose post attempts all fail leaves the replay buffer
uncleared: it ends with the buffer as the aggregation loop left it.  When no eviction is due
(buffer length plus inserted lines within the capacity) that buffer is the old buffer followed by
the lines passed to `_insert`, so the payload of every `SR_PRIO_BUF` request drained in the cycle
is in it; and the batch of a following non-sleeping cycle, whenever it is built, is the text of
exactly these buffer lines (each followed by a newline, in buffer order) followed by the text of
the newly drained requests; it is built for every capacity of at least two. -/
theorem replay_after_failed_send (NUM R : Nat) (rep : SrReporter)
    (hR : R ≤ 31) (hs : rep.sleeping = false)
    (hfail : ∀ j, j ≤ R → (rep.http.net (rep.http.calls + j)).1 < 0) :
    (∀ st q, gather NUM rep = some (st, q) →
      ∃ rep1, cycle NUM R rep = some rep1 ∧ rep1.buffer = st.buf) ∧
    (rep.buffer.length + (bufLines rep.xid [] (rep.out.take NUM)).length ≤ rep.cap →
      ∃ rep1, cycle NUM R rep = some rep1 ∧
        rep1.buffer = rep.buffer ++ bufLines rep.xid [] (rep.out.take NUM) ∧
        (∀ e ∈ rep.out.take NUM, e.prio &&& SR_PRIO_BUF ≠ 0 → payloadOf e ∈ rep1.buffer) ∧
        ∀ nxt : SrReporter, nxt.buffer = rep1.buffer → nxt.sleeping = false →
          (∀ b, batch NUM nxt = some b →
            b = textOf rep1.buffer ++ textOf (msgLines nxt.xid [] (nxt.out.take NUM))) ∧
          (2 ≤ nxt.cap → (batch NUM nxt).isSome = true)) := by
  have hkeep : ∀ st q, gather NUM rep = some (st, q) →
      ∃ rep1, cycle NUM R rep = some rep1 ∧ rep1.buffer = st.buf := by
    intro st q hg
    by_cases hne : st.s = []
    · exact ⟨_, cycle_idle NUM R rep st q hg (Or.inr hne), rfl⟩
    · have hc := cycle_run NUM R R rep st q hs hg hne (le_refl R) hR
        (fun j hj => hfail j (le_of_lt hj)) (fun h => absurd h (lt_irrefl R))
      have hneg : ¬ 0 ≤ (rep.http.net (rep.http.calls + R)).1 := not_le.mpr (hfail R (le_refl R))
      exact ⟨_, hc, by simp [finish, hneg]⟩
  refine ⟨hkeep, ?_⟩
  intro hcap
  have hg := gather_eq NUM rep
  rw [insertAll_below rep.cap rep.buffer _ hcap] at hg
  simp only [Option.map_some'] at hg
  obtain ⟨rep1, hc, h1⟩ := hkeep _ _ hg
  simp only at h1
  refine ⟨rep1, hc, h1, ?_, ?_⟩
  · intro e he hb
    rw [h1]
    exact List.mem_append_right _ (payload_mem_bufLines rep.xid _ [] e he hb)
  · intro nxt hn hsl
    have hgn := gather_eq NUM nxt
    refine ⟨?_, ?_⟩
    · intro b hb
      unfold batch at hb
      rw [hgn] at hb
      cases hi : insertAll nxt.cap nxt.buffer (bufLines nxt.xid [] (nxt.out.take NUM)) with
      | none => rw [hi] at hb; simp at hb
      | some b1 =>
        rw [hi] at hb
        simp only [Option.map_some', Option.some.injEq] at hb
        rw [← hb, ← hn]
        simp [replayText, hsl, textOf]
    · intro hc2
      unfold batch
      rw [hgn]
      have := insertAll_isSome nxt.cap hc2 nxt.buffer (bufLines nxt.xid [] (nxt.out.take NUM))
      obtain ⟨b1, hb1⟩ := Option.isSome_iff_exists.mp this
      rw [hb1]
      rfl

/-- Witness of C1: with the server down, the buffered request `A` and its context line stay in the
buffer of `downRep`. -/
theorem replay_after_failed_send_witness :
    ∃ rep1, cycle 32 3 downRep = some rep1 ∧
      rep1.buffer = downRep.buffer ++ bufLines downRep.xid [] (downRep.out.take 32) ∧
      (∀ e ∈ downRep.out.take 32, e.prio &&& SR_PRIO_BUF ≠ 0 → payloadOf e ∈ rep1.buffer) ∧
      ∀ nxt : SrReporter, nxt.buffer = rep1.buffer → nxt.sleeping = false →
        (∀ b, batch 32 nxt = some b →
          b = textOf rep1.buffer ++ textOf (msgLines nxt.xid [] (nxt.out.take 32))) ∧
        (2 ≤ nxt.cap → (batch 32 nxt).isSome = true) :=
  (replay_after_failed_send 32 3 downRep (by decide) rfl
    (fun _ _ => by simp [downRep, SrNetHttp.init, downNet])).2 (by decide)

/-! ## C2 : capacity bound -/

/-- C2, evaluated at capacity one: the buffer `["15,X"]` has length one, within the capacity, and
`_insert` on it takes the branch that erases the first two entries of a deque holding a single
entry, so the call has no defined result (and no buffer of length at most one comes out of it).
For capacities of at least two the bound holds (`insert_length_le`, `insertAll_length_le`). -/
theorem capacity_bound_cap_one :
    [ctxTag ++ ['X']].length ≤ 1 ∧ _insert [ctxTag ++ ['X']] 1 ['A'] = none ∧
      ¬ ∃ d1, _insert [ctxTag ++ ['X']] 1 ['A'] = some d1 ∧ d1.length ≤ 1 := by
  refine ⟨by decide, by decide, ?_⟩
  rintro ⟨d1, h, _⟩
  have e : _insert [ctxTag ++ ['X']] 1 ['A'] = none := by decide
  rw [e] at h
  cases h

/-! ## C3 : context line at the front after an eviction -/

/-- C3, evaluated at capacity two: the buffer `["15,X", "A"]` is at capacity and begins with a
context line; inserting `"B"` evicts both entries and leaves `["B"]`, whose first entry is not a
context line. -/
theorem front_context_lost_cap_two :
    isCtx (ctxTag ++ ['X']) = true ∧
      _insert [ctxTag ++ ['X'], ['A']] 2 ['B'] = some [['B']] ∧ isCtx ['B'] = false := by
  decide

/-! ## C10 : eviction policy -/

/-- C10. For every capacity of at least two, `_insert` appends the new line as the last entry and
removes entries only among the first two and only at capacity: below capacity the result is
`d ++ [s]`; at capacity with an oldest entry that is not a context line it is `tail d ++ [s]`; at
capacity with an oldest entry that is a context line it is `drop 2 d ++ [s]` or
`head d :: drop 2 d ++ [s]`, so the context line is never evicted alone. -/
theorem eviction_policy (cap : Nat) (hcap : 2 ≤ cap) (d : List Str) (s : Str) :
    (d.length < cap → _insert d cap s = some (d ++ [s])) ∧
    (cap ≤ d.length → ∀ ref, d.head? = some ref → isCtx ref = false →
      _insert d cap s = some (d.tail ++ [s])) ∧
    (cap ≤ d.length → ∀ ref, d.head? = some ref → isCtx ref = true →
      _insert d cap s = some (d.drop 2 ++ [s]) ∨
        _insert d cap s = some (ref :: d.drop 2 ++ [s])) ∧
    (∃ front, front.Sublist (d.take 2) ∧ _insert d cap s = some (front ++ d.drop 2 ++ [s]) ∧
      (d.length < cap → front = d.take 2)) := by
  refine ⟨insert_below d cap s, ?_, ?_, ?_⟩
  · intro h ref href hctx
    obtain ⟨r, x, d2, hd, he⟩ := insert_at_cap d cap s hcap h
    subst hd
    simp only [List.head?_cons, Option.some.injEq] at href
    subst href
    rw [he]
    simp [hctx]
  · intro h ref href hctx
    obtain ⟨r, x, d2, hd, he⟩ := insert_at_cap d cap s hcap h
    subst hd
    simp only [List.head?_cons, Option.some.injEq] at href
    subst href
    rw [he]
    simp only [hctx, Bool.not_true, Bool.false_eq_true, if_false, List.drop_succ_cons, List.drop_zero]
    split
    · right; rfl
    · left; rfl
  · by_cases h : cap ≤ d.length
    · obtain ⟨r, x, d2, hd, he⟩ := insert_at_cap d cap s hcap h
      subst hd
      rw [he]
      simp only [List.take_succ_cons, List.take_zero, List.drop_succ_cons, List.drop_zero]
      split
      · exact ⟨[x], by simp, by simp, fun hl => absurd h (Nat.not_le.mpr hl)⟩
      · split
        · exact ⟨[r], by simp, by simp, fun hl => absurd h (Nat.not_le.mpr hl)⟩
        · exact ⟨[], by simp, by simp, fun hl => absurd h (Nat.not_le.mpr hl)⟩
    · refine ⟨d.take 2, List.Sublist.refl _, ?_, fun _ => rfl⟩
      rw [insert_below d cap s (Nat.not_le.mp h), List.take_append_drop]

/-- Witness of C10 at capacity three with the full buffer `["15,X", "A", "B"]`. -/
theorem eviction_policy_witness :
    2 ≤ 3 ∧
      (_insert [ctxTag ++ ['X'], ['A'], ['B']] 3 ['C']
        = some ([ctxTag ++ ['X'], ['A'], ['B']].drop 2 ++ [['C']]) ∨
      _insert [ctxTag ++ ['X'], ['A'], ['B']] 3 ['C']
        = some ((ctxTag ++ ['X']) :: [ctxTag ++ ['X'], ['A'], ['B']].drop 2 ++ [['C']])) :=
  ⟨by decide,
    (eviction_policy 3 (by decide) [ctxTag ++ ['X'], ['A'], ['B']] ['C']).2.2.1 (by decide)
      (ctxTag ++ ['X']) rfl (by decide)⟩

/-! ## C4 : context-switch insertion -/

theorem findFrom_mem (c : Char) (s : Str) (i : Nat) (h : c ∈ s) :
    findFrom c s i = i + (s.takeWhile fun ch => ch != c).length := by
  induction s generalizing i with
  | nil => simp at h
  | cons x xs ih =>
    unfold findFrom
    by_cases hx : x = c
    · simp [hx, List.takeWhile]
    · have hm : c ∈ xs := by
        rcases List.mem_cons.mp h with h1 | h1
        · exact absurd h1.symm hx
        · exact h1
      have hb : (x != c) = true := by simpa using hx
      simp only [hx, if_false, List.takeWhile, hb, List.length_cons]
      rw [ih (i + 1) hm]
      omega

theorem take_length_takeWhile (p : Char → Bool) (s : Str) :
    s.take (s.takeWhile p).length = s.takeWhile p := by
  induction s with
  | nil => rfl
  | cons x xs ih =>
    cases hp : p x <;> simp [List.takeWhile, hp, ih]

theorem drop_length_takeWhile (p : Char → Bool) (s : Str) :
    s.drop (s.takeWhile p).length = s.dropWhile p := by
  induction s with
  | nil => rfl
  | cons x xs ih =>
    cases hp : p x <;> simp [List.takeWhile, List.dropWhile, hp, ih]

theorem sep_not_mem_takeWhile (c : Char) (s : Str) : c ∉ s.takeWhile fun ch => ch != c := by
  induction s with
  | nil => simp
  | cons x xs ih =>
    by_cases hx : x = c
    · simp [List.takeWhile, hx]
    · have hb : (x != c) = true := by simpa using hx
      simp only [List.takeWhile, hb, List.mem_cons, not_or]
      exact ⟨fun h => hx h.symm, ih⟩

theorem find_of_mem (s : Str) (h : ',' ∈ s) :
    find s ',' = (s.takeWhile fun ch => ch != ',').length ∧ find s ',' < s.length := by
  have e : find s ',' = (s.takeWhile fun ch => ch != ',').length := by
    simpa [find] using findFrom_mem ',' s 0 h
  refine ⟨e, ?_⟩
  rcases find_bounds s ',' with h1 | h1
  · rw [e]
    rcases Nat.lt_or_ge (s.takeWhile fun ch => ch != ',').length s.length with h2 | h2
    · exact h2
    · have h4 := take_length_takeWhile (fun ch => ch != ',') s
      rw [List.take_of_length_le h2] at h4
      have h5 := sep_not_mem_takeWhile ',' s
      rw [← h4] at h5
      exact absurd h h5
  · exact h1

theorem cxidOf_eq_spec (xid : Str) (e : SrNews) (hc : e.prio &&& SR_PRIO_XID ≠ 0 → ',' ∈ e.data) :
    cxidOf xid e = specCtx xid e := by
  unfold cxidOf specCtx
  by_cases hx : e.prio &&& SR_PRIO_XID = 0
  · simp [hx]
  · simp only [ne_eq, hx, not_false_eq_true, if_true]
    rw [(find_of_mem e.data (hc hx)).1, take_length_takeWhile]

theorem payloadOf_eq_spec (e : SrNews) (hc : e.prio &&& SR_PRIO_XID ≠ 0 → ',' ∈ e.data)
    (hl : e.data.length < SIZE_MOD) : payloadOf e = specPayload e := by
  unfold payloadOf posOf specPayload
  have hn : ∀ l : Str, l.length ≤ e.data.length → l.take npos = l := by
    intro l hle
    apply List.take_of_length_le
    simp only [SIZE_MOD] at hl
    simp only [npos]
    omega
  by_cases hx : e.prio &&& SR_PRIO_XID = 0
  · simp only [hx, ne_eq, not_true_eq_false, if_false, List.drop_zero]
    exact hn _ (le_refl _)
  · simp only [ne_eq, hx, not_false_eq_true, if_true]
    obtain ⟨h1, h2⟩ := find_of_mem e.data (hc hx)
    rw [Nat.mod_eq_of_lt (by omega), hn _ (by simp), h1, ← drop_length_takeWhile, List.drop_drop]

theorem msgLines_eq_spec (xid : Str) (es : List SrNews) :
    ∀ mx : Str, (∀ e ∈ es, e.prio &&& SR_PRIO_XID ≠ 0 → ',' ∈ e.data) →
      (∀ e ∈ es, e.data.length < SIZE_MOD) →
      textOf (msgLines xid mx es) = specBatch xid mx es := by
  induction es with
  | nil => intro mx _ _; rfl
  | cons a as ih =>
    intro mx hc hl
    have ha := cxidOf_eq_spec xid a (hc a (List.mem_cons_self _ _))
    have hp := payloadOf_eq_spec a (hc a (List.mem_cons_self _ _)) (hl a (List.mem_cons_self _ _))
    simp only [msgLines, specBatch, textOf_append]
    rw [ih _ (fun e he => hc e (List.mem_cons_of_mem _ he))
      (fun e he => hl e (List.mem_cons_of_mem _ he)), ← ha, ← hp]
    by_cases hx : cxidOf xid a = mx <;> simp [stepLines, hx, textOf]

theorem bufLines_nil (xid : Str) (es : List SrNews) :
    ∀ mx : Str, (∀ e ∈ es, e.prio &&& SR_PRIO_BUF = 0) → bufLines xid mx es = [] := by
  induction es with
  | nil => intro mx _; rfl
  | cons a as ih =>
    intro mx h
    simp [bufLines, h a (List.mem_cons_self _ _), ih _ (fun e he => h e (List.mem_cons_of_mem _ he))]

/-- C4. In a cycle that starts with an empty replay buffer (not sleeping, or sleeping: the text
is built alike and only the post is skipped), the batch text is
the concatenation, in queue order over the drained requests (at most `SR_REPORTER_NUM` from the
front of the queue), of the line `15,<ctx>` iff the effective context id differs from that of the
previous request (the empty string before the first), followed by the payload line; the context
id is the device XID or, with `SR_PRIO_XID`, the text before the first comma, the payload then
being the text after it.  An `SR_PRIO_XID` request is taken to contain a comma and every data
string to be shorter than `2 ^ 64`.  The batch is built whenever the capacity is at least two or
no drained request is tagged `SR_PRIO_BUF`. -/
theorem context_switch_insertion (NUM : Nat) (rep : SrReporter) (hb : rep.buffer = [])
    (hcomma : ∀ e ∈ rep.out.take NUM, e.prio &&& SR_PRIO_XID ≠ 0 → ',' ∈ e.data)
    (hsize : ∀ e ∈ rep.out.take NUM, e.data.length < SIZE_MOD) :
    (∀ b, batch NUM rep = some b → b = specBatch rep.xid [] (rep.out.take NUM)) ∧
    ((2 ≤ rep.cap ∨ ∀ e ∈ rep.out.take NUM, e.prio &&& SR_PRIO_BUF = 0) →
      batch NUM rep = some (specBatch rep.xid [] (rep.out.take NUM))) := by
  have hg := gather_eq NUM rep
  have htxt := msgLines_eq_spec rep.xid (rep.out.take NUM) [] hcomma hsize
  have hbatch : ∀ b1, insertAll rep.cap rep.buffer (bufLines rep.xid [] (rep.out.take NUM)) = some b1 →
      batch NUM rep = some (specBatch rep.xid [] (rep.out.take NUM)) := by
    intro b1 hb1
    unfold batch
    rw [hg, hb1]
    simp [replayText, hb, htxt]
  refine ⟨?_, ?_⟩
  · intro b hbt
    cases hi : insertAll rep.cap rep.buffer (bufLines rep.xid [] (rep.out.take NUM)) with
    | none =>
      unfold batch at hbt
      rw [hg, hi] at hbt
      simp at hbt
    | some b1 =>
      rw [hbatch b1 hi] at hbt
      exact (Option.some.inj hbt).symm
  · rintro (hc | hn)
    · obtain ⟨b1, hb1⟩ := Option.isSome_iff_exists.mp
        (insertAll_isSome rep.cap hc rep.buffer (bufLines rep.xid [] (rep.out.take NUM)))
      exact hbatch b1 hb1
    · exact hbatch rep.buffer (by rw [bufLines_nil rep.xid _ [] hn]; rfl)

/-- Witness of C4: device XID `X` and the requests `A`, `B`, `Y,C` (the last with `SR_PRIO_XID`)
give the batch `15,X\nA\nB\n15,Y\nC\n`. -/
theorem context_switch_insertion_witness :
    batch 32 ctxRep = some "15,X\nA\nB\n15,Y\nC\n".toList :=
  (context_switch_insertion 32 ctxRep rfl (by decide) (by decide)).2 (Or.inl (by decide))

/-! ## C5 : retry with doubling backoff -/

/-- C5. In a cycle that is not sleeping and has built the non-empty batch `st.s`, against a
transport whose post fails `K` times and then succeeds, with `R = SR_REPORTER_RETRIES ≤ 31`: the
cycle makes exactly `min K R + 1` posts, all of the batch `st.s`; it sleeps
`1, 2, 4, ..., 2 ^ (min K R - 1)` seconds in that order, `2 ^ min K R - 1` seconds in total; and
the return value of its last post is non-negative (the cycle ends in success) iff `K ≤ R`. -/
theorem retry_doubling_backoff (NUM R K : Nat) (rep : SrReporter) (st : Agg) (q : List SrNews)
    (hR : R ≤ 31) (hs : rep.sleeping = false) (hg : gather NUM rep = some (st, q))
    (hne : st.s ≠ [])
    (hfail : ∀ j, j < K → (rep.http.net (rep.http.calls + j)).1 < 0)
    (hok : 0 ≤ (rep.http.net (rep.http.calls + K)).1) :
    ∃ (rep1 : SrReporter) (h : SrNetHttp),
      cycle NUM R rep = some rep1 ∧
      rep1 = finish rep st q (rep.http.net (rep.http.calls + min K R)).1 h
        (rep.slept ++ (List.range (min K R)).map (fun i => 2 ^ i)) ∧
      rep1.http.posted = rep.http.posted ++ List.replicate (min K R + 1) st.s ∧
      rep1.slept = rep.slept ++ (List.range (min K R)).map (fun i => 2 ^ i) ∧
      ((List.range (min K R)).map (fun i => 2 ^ i)).sum = 2 ^ min K R - 1 ∧
      (0 ≤ (rep.http.net (rep.http.calls + min K R)).1 ↔ K ≤ R) := by
  have hm : min K R ≤ R := Nat.min_le_right K R
  have hrun := cycle_run NUM R (min K R) rep st q hs hg hne hm (le_trans hm hR)
    (fun j hj => hfail j (lt_of_lt_of_le hj (Nat.min_le_left K R)))
    (fun hlt => by
      have e : min K R = K := by omega
      rw [e]; exact hok)
  have hb : backoff 0 (min K R) = (List.range (min K R)).map fun i => 2 ^ i := by
    rw [backoff_eq]; simp
  have hsum := backoff_sum 0 (min K R)
  rw [hb] at hrun hsum
  obtain ⟨_, _, hposted, _⟩ := postN_fields st.s (min K R + 1) rep.http
  refine ⟨_, postN st.s (min K R + 1) rep.http, hrun, rfl, ?_, ?_, ?_, ?_⟩
  · unfold finish
    split <;> simpa [SrNetHttp.clear] using hposted
  · unfold finish
    split <;> rfl
  · simp only [pow_zero, Nat.zero_add] at hsum
    omega
  · constructor
    · intro hc
      by_contra hlt
      have e : min K R = R := by omega
      rw [e] at hc
      have := hfail R (by omega)
      omega
    · intro hle
      have e : min K R = K := by omega
      rw [e]; exact hok

/-- Witness of C5: two refused posts, then success, with three retries allowed. -/
theorem retry_doubling_backoff_witness :
    ∃ (rep1 : SrReporter) (h : SrNetHttp),
      cycle 32 3 flakyRep = some rep1 ∧
      rep1 = finish flakyRep flakyAgg [] (flakyRep.http.net (flakyRep.http.calls + min 2 3)).1 h
        (flakyRep.slept ++ (List.range (min 2 3)).map (fun i => 2 ^ i)) ∧
      rep1.http.posted = flakyRep.http.posted ++ List.replicate (min 2 3 + 1) flakyAgg.s ∧
      rep1.slept = flakyRep.slept ++ (List.range (min 2 3)).map (fun i => 2 ^ i) ∧
      ((List.range (min 2 3)).map (fun i => 2 ^ i)).sum = 2 ^ min 2 3 - 1 ∧
      (0 ≤ (flakyRep.http.net (flakyRep.http.calls + min 2 3)).1 ↔ 2 ≤ 3) :=
  retry_doubling_backoff 32 3 2 flakyRep flakyAgg [] (by decide) rfl (by decide) (by decide)
    (fun j hj => by
      simp only [flakyRep, SrNetHttp.init, flakyNet, Nat.zero_add, hj, if_true]
      decide)
    (by decide)

/-! ## C6 : confirmed delivery -/

/-- C6. In a cycle that is not sleeping and has built a non-empty batch, if some post attempt
returns a value `≥ 0` (an attempt `k ≤ SR_REPORTER_RETRIES`, the retries being at most 31), the
replay buffer is empty at the end of the cycle, and the response body `resp` left by the first
successful post is put on the ingress queue, as one `SrOpBatch`, iff it is non-empty. -/
theorem confirmed_delivery (NUM R : Nat) (rep : SrReporter) (st : Agg) (q : List SrNews)
    (hR : R ≤ 31) (hs : rep.sleeping = false) (hg : gather NUM rep = some (st, q))
    (hne : st.s ≠ []) (k : Nat) (hk : k ≤ R)
    (hok : 0 ≤ (rep.http.net (rep.http.calls + k)).1) :
    ∃ (rep1 : SrReporter) (K : Nat),
      cycle NUM R rep = some rep1 ∧ rep1.buffer = [] ∧
      K ≤ k ∧ 0 ≤ (rep.http.net (rep.http.calls + K)).1 ∧
      (∀ j, j < K → (rep.http.net (rep.http.calls + j)).1 < 0) ∧
      ((rep.http.net (rep.http.calls + K)).2 ≠ [] →
        rep1.inq = rep.inq ++ [⟨(rep.http.net (rep.http.calls + K)).2⟩]) ∧
      ((rep.http.net (rep.http.calls + K)).2 = [] → rep1.inq = rep.inq) := by
  classical
  have hex : ∃ j, 0 ≤ (rep.http.net (rep.http.calls + j)).1 := ⟨k, hok⟩
  have hK := Nat.find_spec hex
  have hKk : Nat.find hex ≤ k := Nat.find_min' hex hok
  have hlow : ∀ j, j < Nat.find hex → (rep.http.net (rep.http.calls + j)).1 < 0 :=
    fun j hj => not_le.mp (Nat.find_min hex hj)
  have hrun := cycle_run NUM R (Nat.find hex) rep st q hs hg hne (le_trans hKk hk)
    (le_trans (le_trans hKk hk) hR) hlow (fun _ => hK)
  obtain ⟨_, _, _, hresp⟩ := postN_fields st.s (Nat.find hex + 1) rep.http
  simp only [Nat.succ_ne_zero, if_false, Nat.add_succ_sub_one] at hresp
  refine ⟨_, Nat.find hex, hrun, ?_, hKk, hK, hlow, ?_, ?_⟩
  · simp [finish, hK]
  · intro hn
    simp [finish, hK, hresp, hn]
  · intro hn
    simp [finish, hK, hresp, hn]

/-- Witness of C6: the third post of `flakyRep` succeeds and its response `ok` is queued. -/
theorem confirmed_delivery_witness :
    ∃ (rep1 : SrReporter) (K : Nat),
      cycle 32 3 flakyRep = some rep1 ∧ rep1.buffer = [] ∧
      K ≤ 2 ∧ 0 ≤ (flakyRep.http.net (flakyRep.http.calls + K)).1 ∧
      (∀ j, j < K → (flakyRep.http.net (flakyRep.http.calls + j)).1 < 0) ∧
      ((flakyRep.http.net (flakyRep.http.calls + K)).2 ≠ [] →
        rep1.inq = flakyRep.inq ++ [⟨(flakyRep.http.net (flakyRep.http.calls + K)).2⟩]) ∧
      ((flakyRep.http.net (flakyRep.http.calls + K)).2 = [] → rep1.inq = flakyRep.inq) :=
  confirmed_delivery 32 3 flakyRep flakyAgg [] (by decide) rfl (by decide) (by decide) 2
    (by decide) (by decide)

/-! ## C7, C8 : the successful integration scenarios -/

theorem headIs_cons (f : Nat × Str) (r : SrRecord) (code : Str) :
    headIs (f :: r) code = decide (f.2 = code) := rfl

/-- C7. Scenario (a): the probe succeeds and is answered by a record with first field `40`, the
template post succeeds and is answered by `["20", XID1]`, the request `300,<deviceID>` succeeds
and is answered by `["800", f, OBJ1]`; then `integrate` returns 0 with `xid = XID1` and
`id = OBJ1`, having posted exactly the empty body, `srt` and `300,<deviceID>`, in that order. -/
theorem integrate_scenario_a (lexer : Str → SrRecord) (net : Nat → Int × Str)
    (deviceID srt : Str) (self : Integrate) (XID1 OBJ1 f : Str) (t0 t1 t2 t3 t4 : Nat)
    (h0 : 0 ≤ (net 0).1) (r0 : headIs (lexer (net 0).2) code40 = true)
    (h1 : 0 < (net 1).1) (r1 : lexer (net 1).2 = [(t0, code20), (t1, XID1)])
    (h2 : 0 < (net 2).1) (r2 : lexer (net 2).2 = [(t2, code800), (t3, f), (t4, OBJ1)]) :
    (integrate lexer net deviceID srt self).1 = 0 ∧
      (integrate lexer net deviceID srt self).2.1 = { xid := XID1, id := OBJ1 } ∧
      (integrate lexer net deviceID srt self).2.2.posted = [[], srt, req300 deviceID] := by
  have n0 : ¬ (net 0).1 < 0 := not_lt.mpr h0
  have n1 : ¬ (net 1).1 ≤ 0 := not_le.mpr h1
  have n2 : ¬ (net 2).1 ≤ 0 := not_le.mpr h2
  have c1 : code800 ≠ code50 := by decide
  simp [integrate, integrateXid, integrateObject, SrNetHttp.post, SrNetHttp.init,
    SrNetHttp.clear, n0, n1, n2, r0, r1, r2, shapeIs, headIs_cons, field, c1]

/-- Witness of C7 with the one-line tokenizer and the server `netA`. -/
theorem integrate_scenario_a_witness :
    (integrate lineLexer netA ['d'] ['t'] ⟨[], []⟩).1 = 0 ∧
      (integrate lineLexer netA ['d'] ['t'] ⟨[], []⟩).2.1
        = { xid := "XID1".toList, id := "OBJ1".toList } ∧
      (integrate lineLexer netA ['d'] ['t'] ⟨[], []⟩).2.2.posted = [[], ['t'], req300 ['d']] :=
  integrate_scenario_a lineLexer netA ['d'] ['t'] ⟨[], []⟩ "XID1".toList "OBJ1".toList ['0']
    0 0 0 0 0 (by decide) (by decide) (by decide) (by decide) (by decide) (by decide)

/-- C8. Scenario (b): the probe succeeds and is answered directly by `["20", XID2]`, the request
`300,<deviceID>` succeeds and is answered by a record with first field `50`, the request `301`
succeeds and is answered by `["801", f, OBJ2]`, and the binding post succeeds; then `integrate`
returns 0 with `xid = XID2` and `id = OBJ2`, and the bodies posted are exactly the empty body,
`300,<deviceID>`, `301` and `302,OBJ2,<deviceID>`, in that order (no template post). -/
theorem integrate_scenario_b (lexer : Str → SrRecord) (net : Nat → Int × Str)
    (deviceID srt : Str) (self : Integrate) (XID2 OBJ2 f : Str) (t0 t1 t2 t3 t4 : Nat)
    (h0 : 0 ≤ (net 0).1) (r0 : lexer (net 0).2 = [(t0, code20), (t1, XID2)])
    (h1 : 0 < (net 1).1) (r1 : headIs (lexer (net 1).2) code50 = true)
    (h2 : 0 < (net 2).1) (r2 : lexer (net 2).2 = [(t2, code801), (t3, f), (t4, OBJ2)])
    (h3 : 0 < (net 3).1) :
    (integrate lexer net deviceID srt self).1 = 0 ∧
      (integrate lexer net deviceID srt self).2.1 = { xid := XID2, id := OBJ2 } ∧
      (integrate lexer net deviceID srt self).2.2.posted
        = [[], req300 deviceID, req301, req302 OBJ2 deviceID] := by
  have n0 : ¬ (net 0).1 < 0 := not_lt.mpr h0
  have n1 : ¬ (net 1).1 ≤ 0 := not_le.mpr h1
  have n2 : ¬ (net 2).1 ≤ 0 := not_le.mpr h2
  have n3 : ¬ (net 3).1 ≤ 0 := not_le.mpr h3
  have c1 : code20 ≠ code40 := by decide
  simp [integrate, integrateXid, integrateObject, SrNetHttp.post, SrNetHttp.init,
    SrNetHttp.clear, n0, n1, n2, n3, r0, r1, r2, shapeIs, headIs_cons, field, c1]

/-- Witness of C8 with the one-line tokenizer and the server `netB`. -/
theorem integrate_scenario_b_witness :
    (integrate lineLexer netB ['d'] ['t'] ⟨[], []⟩).1 = 0 ∧
      (integrate lineLexer netB ['d'] ['t'] ⟨[], []⟩).2.1
        = { xid := "XID2".toList, id := "OBJ2".toList } ∧
      (integrate lineLexer netB ['d'] ['t'] ⟨[], []⟩).2.2.posted
        = [[], req300 ['d'], req301, req302 "OBJ2".toList ['d']] :=
  integrate_scenario_b lineLexer netB ['d'] ['t'] ⟨[], []⟩ "XID2".toList "OBJ2".toList ['0']
    0 0 0 0 0 (by decide) (by decide) (by decide) (by decide) (by decide) (by decide) (by decide)

/-! ## C9 : identity fields after a failed handshake -/

theorem integrateObject_fail (lexer : Str → SrRecord) (deviceID : Str) (self : Integrate)
    (h : SrNetHttp) (r : SrRecord) :
    (integrateObject lexer deviceID self h r).2.1.xid = self.xid ∧
      ((integrateObject lexer deviceID self h r).1 = -1 →
        (integrateObject lexer deviceID self h r).2.1.id = self.id ∨
          (integrateObject lexer deviceID self h r).2.2.posted.getLast?
            = some (req302 (integrateObject lexer deviceID self h r).2.1.id deviceID)) := by
  unfold integrateObject
  dsimp only
  split_ifs <;> simp [SrNetHttp.post]

theorem integrateXid_fail (lexer : Str → SrRecord) (deviceID : Str) (self : Integrate)
    (h : SrNetHttp) (r : SrRecord) :
    (shapeIs r 2 code20 = false → integrateXid lexer deviceID self h r = (-1, self, h)) ∧
      (shapeIs r 2 code20 = true →
        (integrateXid lexer deviceID self h r).2.1.xid = field r 1 ∧
        ((integrateXid lexer deviceID self h r).1 = -1 →
          (integrateXid lexer deviceID self h r).2.1.id = self.id ∨
            (integrateXid lexer deviceID self h r).2.2.posted.getLast?
              = some (req302 (integrateXid lexer deviceID self h r).2.1.id deviceID))) := by
  unfold integrateXid
  refine ⟨fun hs => by simp [hs], fun hs => ?_⟩
  simp only [hs, if_true]
  by_cases hp : (h.clear.post (req300 deviceID)).1 ≤ 0
  · simp [hp]
  · simp only [hp, if_false]
    have := integrateObject_fail lexer deviceID { self with xid := field r 1 }
      (h.clear.post (req300 deviceID)).2 (lexer (h.clear.post (req300 deviceID)).2.resp)
    exact ⟨this.1, this.2⟩

/-- C9, as stated, fails in scenario (c): the probe is answered by `20,XID3`, the request
`300,<deviceID>` by the unrecognised code `99`; `integrate` returns -1 and `xid`, empty before
the call, is `XID3` afterwards. -/
theorem identity_leak_counterexample :
    (integrate lineLexer netC ['d'] ['t'] ⟨[], []⟩).1 = -1 ∧
      (integrate lineLexer netC ['d'] ['t'] ⟨[], []⟩).2.1.xid = "XID3".toList ∧
      (integrate lineLexer netC ['d'] ['t'] ⟨[], []⟩).2.1 ≠ ⟨[], []⟩ := by
  decide

/-- C9, amended. When `integrate` returns -1: if the handshake failed before an XID was accepted
(probe post `< 0`, template post `≤ 0`, or the record read next not of the shape `["20", x]`),
`xid` and `id` are as before the call; otherwise `xid` is the second field of that record, and
`id` is as before the call unless the last request posted is the binding `302,<id>,<deviceID>`
for the new `id`. -/
theorem identity_on_failure (lexer : Str → SrRecord) (net : Nat → Int × Str)
    (deviceID srt : Str) (self : Integrate)
    (hfail : (integrate lexer net deviceID srt self).1 = -1) :
    (earlyFail lexer net = true → (integrate lexer net deviceID srt self).2.1 = self) ∧
    (earlyFail lexer net = false →
      (integrate lexer net deviceID srt self).2.1.xid = field (xidRecord lexer net) 1 ∧
      ((integrate lexer net deviceID srt self).2.1.id = self.id ∨
        (integrate lexer net deviceID srt self).2.2.posted.getLast?
          = some (req302 (integrate lexer net deviceID srt self).2.1.id deviceID))) := by
  have key := fun h r => integrateXid_fail lexer deviceID self h r
  revert hfail
  unfold integrate earlyFail xidRecord
  simp only [SrNetHttp.post, SrNetHttp.init, SrNetHttp.clear, Nat.zero_add]
  by_cases hp : (net 0).1 < 0
  · simp [hp]
  · simp only [hp, if_false, decide_False, Bool.false_or]
    by_cases h40 : headIs (lexer (net 0).2) code40 = true
    · simp only [h40, if_true, Bool.true_and]
      by_cases hp1 : (net 1).1 ≤ 0
      · simp [hp1]
      · simp only [hp1, if_false, decide_False, Bool.false_or]
        intro hfail
        cases hs : shapeIs (lexer (net 1).2) 2 code20
        · rw [(key _ _).1 hs]
          simp
        · simp only [Bool.not_true, Bool.false_eq_true, false_implies, true_and]
          intro _
          exact ⟨((key _ _).2 hs).1, ((key _ _).2 hs).2 hfail⟩
    · simp only [h40, Bool.false_eq_true, if_false, Bool.false_and, Bool.false_or]
      intro hfail
      cases hs : shapeIs (lexer (net 0).2) 2 code20
      · rw [(key _ _).1 hs]
        simp
      · simp only [Bool.not_true, Bool.false_eq_true, false_implies, true_and]
        intro _
        exact ⟨((key _ _).2 hs).1, ((key _ _).2 hs).2 hfail⟩

/-- Witness of C9 amended, scenario (c): the handshake fails after the XID was accepted; `xid` is
`XID3` and `id` is still empty. -/
theorem identity_on_failure_witness :
    (integrate lineLexer netC ['d'] ['t'] ⟨[], []⟩).1 = -1 ∧
      earlyFail lineLexer netC = false ∧
      (integrate lineLexer netC ['d'] ['t'] ⟨[], []⟩).2.1.xid = field (xidRecord lineLexer netC) 1 ∧
      ((integrate lineLexer netC ['d'] ['t'] ⟨[], []⟩).2.1.id = [] ∨
        (integrate lineLexer netC ['d'] ['t'] ⟨[], []⟩).2.2.posted.getLast?
          = some (req302 (integrate lineLexer netC ['d'] ['t'] ⟨[], []⟩).2.1.id ['d'])) :=
  ⟨by decide, by decide,
    (identity_on_failure lineLexer netC ['d'] ['t'] ⟨[], []⟩ (by decide)).2 (by decide)⟩

/-! ## C17 : bounds safety of the eviction -/

/-- C17. For every capacity of at least two, every buffer `d` and every line `s`: when `_insert`
enters the eviction branch (`cap ≤ length d`) the buffer has at least two entries, so `front()`
is read on a non-empty deque and the erase of the first two entries is within bounds, and the
call has a defined result.  For capacity one and a buffer holding a single context line `c`, the
eviction branch is entered with one entry only, and the erase of two entries is out of bounds. -/
theorem eviction_in_bounds (d : List Str) (s : Str) :
    (∀ cap, 2 ≤ cap →
      (cap ≤ d.length → d ≠ [] ∧ 2 ≤ d.length) ∧ ∃ d1, _insert d cap s = some d1) ∧
    (∀ c, isCtx c = true → 1 ≤ [c].length ∧ [c].length < 2 ∧ _insert [c] 1 s = none) := by
  refine ⟨?_, ?_⟩
  · intro cap hcap
    refine ⟨?_, Option.isSome_iff_exists.mp (insert_isSome d cap s hcap)⟩
    intro h
    refine ⟨?_, le_trans hcap h⟩
    intro hd
    rw [hd] at h
    simp at h
    omega
  · intro c hc
    refine ⟨by simp, by simp, ?_⟩
    simp [_insert, hc]

/-- Witness of C17 at capacity two with a full buffer, and at capacity one with the lone context
line `15,X`. -/
theorem eviction_in_bounds_witness :
    (∃ d1, _insert [ctxTag ++ ['X'], ['A']] 2 ['B'] = some d1) ∧
      _insert [ctxTag ++ ['X']] 1 ['B'] = none :=
  ⟨((eviction_in_bounds [ctxTag ++ ['X'], ['A']] ['B']).1 2 (by decide)).2,
    ((eviction_in_bounds [] ['B']).2 (ctxTag ++ ['X']) (by decide)).2.2⟩

/-! ## C18 : context line at the front, capacities of at least three -/

/-- C18. For every capacity of at least three, every buffer `d` of length at most the capacity
that is empty or begins with a context line, and every line `s` that is a context line whenever
`d` is empty, the buffer after `_insert d cap s` is non-empty and begins with a context line. -/
theorem front_context_kept (cap : Nat) (hcap : 3 ≤ cap) (d : List Str) (s : Str)
    (hlen : d.length ≤ cap) (hfront : d = [] ∨ d.head?.map isCtx = some true)
    (hs : d = [] → isCtx s = true) :
    ∃ d1, _insert d cap s = some d1 ∧ d1 ≠ [] ∧ d1.head?.map isCtx = some true := by
  by_cases h : cap ≤ d.length
  · obtain ⟨ref, x, d2, hd, he⟩ := insert_at_cap d cap s (by omega) h
    subst hd
    have href : isCtx ref = true := by
      rcases hfront with h1 | h1
      · cases h1
      · simpa using h1
    rw [he]
    simp only [href, Bool.not_true, Bool.false_eq_true, if_false]
    cases d2 with
    | nil => simp at h; omega
    | cons f fs =>
      cases hf : isCtx f
      · exact ⟨ref :: (f :: fs) ++ [s], by simp [hf], by simp, by simp [href]⟩
      · exact ⟨(f :: fs) ++ [s], by simp [hf], by simp, by simp [hf]⟩
  · rw [insert_below d cap s (Nat.not_le.mp h)]
    refine ⟨d ++ [s], rfl, by simp, ?_⟩
    cases d with
    | nil => simp [hs rfl]
    | cons a as =>
      rcases hfront with h1 | h1
      · cases h1
      · simpa using h1

/-- Witness of C18 at capacity three with the full buffer `["15,X", "A", "B"]`. -/
theorem front_context_kept_witness :
    ∃ d1, _insert [ctxTag ++ ['X'], ['A'], ['B']] 3 ['C'] = some d1 ∧ d1 ≠ [] ∧
      d1.head?.map isCtx = some true :=
  front_context_kept 3 (by decide) [ctxTag ++ ['X'], ['A'], ['B']] ['C'] (by decide)
    (Or.inr (by decide)) (by intro h; cases h)

/-! ## C13 : what the eviction re-inserts -/

/-- C13, as stated, fails at capacity three: from `["15,X", "A", "15,Y"]` the insert of `"B"`
leaves `["15,Y", "B"]`; the dependent line `"A"` is not the first entry, it is gone. -/
theorem rehoming_counterexample :
    isCtx (ctxTag ++ ['X']) = true ∧ isCtx ['A'] = false ∧ isCtx (ctxTag ++ ['Y']) = true ∧
      _insert [ctxTag ++ ['X'], ['A'], ctxTag ++ ['Y']] 3 ['B'] = some [ctxTag ++ ['Y'], ['B']] ∧
      [ctxTag ++ ['Y'], ['B']].head? ≠ some ['A'] ∧ ['A'] ∉ [ctxTag ++ ['Y'], ['B']] := by
  decide

/-- C13, amended. For a buffer at capacity of the form `c1 :: m :: c2 :: rest` with `c1` and `c2`
context lines, `_insert` evicts `c1` together with its dependent line `m` and re-inserts nothing:
the result is `c2 :: rest ++ [s]`, which begins with the context line `c2`.  What is re-inserted
in the other case is the context line: with `x` not a context line, `c1 :: m :: x :: rest` becomes
`c1 :: x :: rest ++ [s]`. -/
theorem eviction_of_pair (cap : Nat) (c1 m x : Str) (rest : List Str) (s : Str)
    (hfull : cap ≤ (c1 :: m :: x :: rest).length) (h1 : isCtx c1 = true) :
    (isCtx x = true → _insert (c1 :: m :: x :: rest) cap s = some (x :: rest ++ [s])) ∧
    (isCtx x = false → _insert (c1 :: m :: x :: rest) cap s = some (c1 :: x :: rest ++ [s])) := by
  have hf : cap ≤ rest.length + 1 + 1 + 1 := by simpa using hfull
  have hn : ¬ rest.length + 1 + 1 + 1 < cap := by omega
  constructor <;> intro hx <;> simp [_insert, hf, hn, h1, hx]

/-- Witness of C13 amended at capacity three. -/
theorem eviction_of_pair_witness :
    _insert [ctxTag ++ ['X'], ['A'], ctxTag ++ ['Y']] 3 ['B'] = some [ctxTag ++ ['Y'], ['B']] :=
  (eviction_of_pair 3 (ctxTag ++ ['X']) ['A'] (ctxTag ++ ['Y']) [] ['B'] (by decide)
    (by decide)).1 (by decide)

/-! ## C12 : the two priority bits -/

theorem xor_buf_and_xid (p : Nat) : (p ^^^ SR_PRIO_BUF) &&& SR_PRIO_XID = p &&& SR_PRIO_XID := by
  unfold SR_PRIO_BUF SR_PRIO_XID
  apply Nat.eq_of_testBit_eq
  intro i
  simp only [Nat.testBit_and, Nat.testBit_xor]
  by_cases h : i = 1
  · subst h; simp [Nat.testBit_succ]
  · have h2 : Nat.testBit 2 i = false := by
      have := @Nat.testBit_two_pow 1 i
      rw [pow_one] at this
      rw [this]
      simp; omega
    simp [h2]

theorem xor_xid_and_buf (p : Nat) : (p ^^^ SR_PRIO_XID) &&& SR_PRIO_BUF = p &&& SR_PRIO_BUF := by
  unfold SR_PRIO_BUF SR_PRIO_XID
  apply Nat.eq_of_testBit_eq
  intro i
  simp only [Nat.testBit_and, Nat.testBit_xor]
  by_cases h : i = 0
  · subst h; simp
  · have h2 : Nat.testBit 1 i = false := by
      have := @Nat.testBit_two_pow 0 i
      rw [pow_zero] at this
      rw [this]
      simp; omega
    simp [h2]

theorem aggStep_buf (xid : Str) (cap : Nat) (e : SrNews) (st a : Agg)
    (h : aggStep xid cap e st = some a) :
    (e.prio &&& SR_PRIO_BUF ≠ 0 →
      ∃ cx pos pl b1, splitXid xid e = some (cx, pos) ∧ substr e.data pos npos = some pl ∧
        (if cx ≠ st.myxid then _insert st.buf cap (ctxTag ++ cx) else some st.buf) = some b1 ∧
        _insert b1 cap pl = some a.buf) ∧
    (e.prio &&& SR_PRIO_BUF = 0 → a.buf = st.buf) := by
  unfold aggStep at h
  rw [splitXid_eq] at h
  simp only [Option.some_bind] at h
  unfold switchXid emitData at h
  rw [substr_payload] at h
  simp only [Option.some_bind] at h
  refine ⟨?_, ?_⟩
  · intro hb
    refine ⟨cxidOf xid e, posOf e, payloadOf e, ?_⟩
    simp only [hb, ne_eq, not_false_eq_true, if_true] at h
    by_cases hx : cxidOf xid e = st.myxid
    · simp only [hx, not_true_eq_false, if_false, Option.some_bind] at h
      cases hi : _insert st.buf cap (payloadOf e) with
      | none => rw [hi] at h; simp at h
      | some b2 =>
        rw [hi] at h
        simp only [Option.map_some', Option.some.injEq] at h
        refine ⟨st.buf, splitXid_eq xid e, substr_payload e, by simp [hx], ?_⟩
        rw [hi, ← h]
    · simp only [hx, not_false_eq_true, if_true] at h
      cases h1 : _insert st.buf cap (ctxTag ++ cxidOf xid e) with
      | none => rw [h1] at h; simp at h
      | some b1 =>
        rw [h1] at h
        simp only [Option.map_some', Option.some_bind] at h
        cases hi : _insert b1 cap (payloadOf e) with
        | none => rw [hi] at h; simp at h
        | some b2 =>
          rw [hi] at h
          simp only [Option.map_some', Option.some.injEq] at h
          refine ⟨b1, splitXid_eq xid e, substr_payload e, by simp [hx, h1], ?_⟩
          rw [hi, ← h]
  · intro hb
    simp only [hb, ne_eq, not_true_eq_false, if_false] at h
    by_cases hx : cxidOf xid e = st.myxid
    · simp only [hx, not_true_eq_false, if_false, Option.some_bind, Option.map_some',
        Option.some.injEq] at h
      rw [← h]
    · simp only [hx, not_false_eq_true, if_true, Option.map_some', Option.some_bind,
        Option.some.injEq] at h
      rw [← h]

/-- C12. For every data and every `prio` value `p`: the effective XID, the payload offset and the
lines the reporter emits are the same for `p` and for `p XOR SR_PRIO_BUF` (also on the loop body
itself: two completed iterations from the same state append the same text and leave the same
`myxid`); the test that decides the insertion into the replay buffer has the same outcome for `p`
and for `p XOR SR_PRIO_XID`; and `SR_PRIO_BUF ^ SR_PRIO_XID = SR_PRIO_BUF | SR_PRIO_XID = 3`
passes both tests, so such a message is split as an alternate-XID message and all its lines are
passed to `_insert`.  On the loop body itself: for `q = p` and for `q = p XOR SR_PRIO_XID` alike,
a completed iteration for `(data, q)` leaves as buffer the result of `_insert` of the payload
(after the `_insert` of the context line on a change of XID) when `p` has `SR_PRIO_BUF`, and the
buffer it started from when `p` has not; an iteration for `(data, 3)` takes the text before the
first comma as XID and leaves as buffer the result of `_insert` of the text after it; every
iteration completes when the capacity is at least two. -/
theorem prio_bits_independent (xid mx data : Str) (p cap : Nat) :
    splitXid xid ⟨data, p ^^^ SR_PRIO_BUF⟩ = splitXid xid ⟨data, p⟩ ∧
    stepLines xid mx ⟨data, p ^^^ SR_PRIO_BUF⟩ = stepLines xid mx ⟨data, p⟩ ∧
    (∀ st a b, aggStep xid cap ⟨data, p⟩ st = some a →
      aggStep xid cap ⟨data, p ^^^ SR_PRIO_BUF⟩ st = some b → a.s = b.s ∧ a.myxid = b.myxid) ∧
    ((p ^^^ SR_PRIO_XID) &&& SR_PRIO_BUF ≠ 0 ↔ p &&& SR_PRIO_BUF ≠ 0) ∧
    (SR_PRIO_BUF ^^^ SR_PRIO_XID = 3 ∧ SR_PRIO_BUF ||| SR_PRIO_XID = 3) ∧
    splitXid xid ⟨data, 3⟩
      = some (data.take (find data ','), (find data ',' + 1) % SIZE_MOD) ∧
    bufLines xid mx [⟨data, 3⟩] = stepLines xid mx ⟨data, 3⟩ ∧
    (∀ q, q = p ∨ q = p ^^^ SR_PRIO_XID → ∀ st a, aggStep xid cap ⟨data, q⟩ st = some a →
      (p &&& SR_PRIO_BUF ≠ 0 →
        ∃ cx pos pl b1, splitXid xid ⟨data, q⟩ = some (cx, pos) ∧
          substr data pos npos = some pl ∧
          (if cx ≠ st.myxid then _insert st.buf cap (ctxTag ++ cx) else some st.buf) = some b1 ∧
          _insert b1 cap pl = some a.buf) ∧
      (p &&& SR_PRIO_BUF = 0 → a.buf = st.buf)) ∧
    (∀ st a, aggStep xid cap ⟨data, 3⟩ st = some a →
      a.myxid = data.take (find data ',') ∧
      ∃ pl b1, substr data ((find data ',' + 1) % SIZE_MOD) npos = some pl ∧
        (if data.take (find data ',') ≠ st.myxid
          then _insert st.buf cap (ctxTag ++ data.take (find data ',')) else some st.buf)
          = some b1 ∧
        _insert b1 cap pl = some a.buf) ∧
    (2 ≤ cap → ∀ q st, ∃ a, aggStep xid cap ⟨data, q⟩ st = some a) := by
  have hc : cxidOf xid ⟨data, p ^^^ SR_PRIO_BUF⟩ = cxidOf xid ⟨data, p⟩ := by
    simp [cxidOf, xor_buf_and_xid]
  have hp : payloadOf ⟨data, p ^^^ SR_PRIO_BUF⟩ = payloadOf ⟨data, p⟩ := by
    simp [payloadOf, posOf, xor_buf_and_xid]
  have hl : ∀ y, stepLines xid y ⟨data, p ^^^ SR_PRIO_BUF⟩ = stepLines xid y ⟨data, p⟩ := by
    intro y; simp [stepLines, hc, hp]
  have hsplit3 : splitXid xid ⟨data, 3⟩
      = some (data.take (find data ','), (find data ',' + 1) % SIZE_MOD) := by
    have h3 : (3 : Nat) &&& SR_PRIO_XID ≠ 0 := by decide
    simp [splitXid, substr, h3]
  refine ⟨by simp [splitXid, xor_buf_and_xid], hl mx, ?_, by rw [xor_xid_and_buf],
    ⟨by decide, by decide⟩, ?_, ?_, ?_, ?_, ?_⟩
  · intro st a b ha hb
    rw [aggStep_eq] at ha hb
    cases h1 : insertAll cap st.buf
        (if (⟨data, p⟩ : SrNews).prio &&& SR_PRIO_BUF ≠ 0 then stepLines xid st.myxid ⟨data, p⟩
          else []) with
    | none => rw [h1] at ha; simp at ha
    | some x1 =>
      rw [h1] at ha
      cases h2 : insertAll cap st.buf
          (if (⟨data, p ^^^ SR_PRIO_BUF⟩ : SrNews).prio &&& SR_PRIO_BUF ≠ 0
            then stepLines xid st.myxid ⟨data, p ^^^ SR_PRIO_BUF⟩ else []) with
      | none => rw [h2] at hb; simp at hb
      | some x2 =>
        rw [h2] at hb
        simp only [Option.map_some', Option.some.injEq] at ha hb
        rw [← ha, ← hb]
        simp [hl, hc]
  · exact hsplit3
  · have h3 : (3 : Nat) &&& SR_PRIO_BUF ≠ 0 := by decide
    simp [bufLines, h3]
  · intro q hq st a ha
    have hbuf := aggStep_buf xid cap ⟨data, q⟩ st a ha
    have hbit : q &&& SR_PRIO_BUF = p &&& SR_PRIO_BUF := by
      rcases hq with h | h
      · rw [h]
      · rw [h, xor_xid_and_buf]
    simp only [hbit] at hbuf
    exact hbuf
  · intro st a ha
    have h3b : (3 : Nat) &&& SR_PRIO_BUF ≠ 0 := by decide
    have hbuf := (aggStep_buf xid cap ⟨data, 3⟩ st a ha).1 h3b
    obtain ⟨cx, pos, pl, b1, h1, h2, h3, h4⟩ := hbuf
    rw [hsplit3] at h1
    simp only [Option.some.injEq, Prod.mk.injEq] at h1
    obtain ⟨hcx, hpos⟩ := h1
    subst hcx hpos
    refine ⟨?_, pl, b1, h2, h3, h4⟩
    rw [aggStep_eq] at ha
    cases hi : insertAll cap st.buf
        (if (⟨data, 3⟩ : SrNews).prio &&& SR_PRIO_BUF ≠ 0 then stepLines xid st.myxid ⟨data, 3⟩
          else []) with
    | none => rw [hi] at ha; simp at ha
    | some x1 =>
      rw [hi] at ha
      simp only [Option.map_some', Option.some.injEq] at ha
      rw [← ha]
      have h3x : (3 : Nat) &&& SR_PRIO_XID ≠ 0 := by decide
      simp [cxidOf, h3x]
  · intro h2 q st
    rw [aggStep_eq]
    obtain ⟨b, hb⟩ := Option.isSome_iff_exists.mp (insertAll_isSome cap h2 st.buf
      (if (⟨data, q⟩ : SrNews).prio &&& SR_PRIO_BUF ≠ 0 then stepLines xid st.myxid ⟨data, q⟩
        else []))
    rw [hb]
    exact ⟨_, rfl⟩

/-- Witness of C12: the request `Y,C` with both bits set is split at the comma and buffered;
from the empty buffer the iteration leaves `["15,Y", "C"]`. -/
theorem prio_bits_independent_witness :
    aggStep ['X'] 10 ⟨['Y', ',', 'C'], 3⟩ ⟨[], [], []⟩
        = some ⟨"15,Y\nC\n".toList, ['Y'], [ctxTag ++ ['Y'], ['C']]⟩ ∧
      ∃ pl b1, substr ['Y', ',', 'C'] ((find ['Y', ',', 'C'] ',' + 1) % SIZE_MOD) npos = some pl ∧
        (if (['Y', ',', 'C'] : Str).take (find ['Y', ',', 'C'] ',') ≠ ([] : Str)
          then _insert [] 10 (ctxTag ++ (['Y', ',', 'C'] : Str).take (find ['Y', ',', 'C'] ','))
          else some []) = some b1 ∧
        _insert b1 10 pl = some [ctxTag ++ ['Y'], ['C']] :=
  ⟨by decide,
    ((prio_bits_independent ['X'] [] ['Y', ',', 'C'] 3 10).2.2.2.2.2.2.2.2.1
      ⟨[], [], []⟩ ⟨"15,Y\nC\n".toList, ['Y'], [ctxTag ++ ['Y'], ['C']]⟩ (by decide)).2⟩

/-! ## C20 : alternate XID without a comma -/

theorem findFrom_not_mem (c : Char) (s : Str) (i : Nat) (h : c ∉ s) : findFrom c s i = npos := by
  induction s generalizing i with
  | nil => rfl
  | cons x xs ih =>
    have hx : ¬ x = c := fun e => h (by simp [e])
    have hm : c ∉ xs := fun e => h (List.mem_cons_of_mem _ e)
    simp [findFrom, hx, ih (i + 1) hm]

/-- C20. For a request with `SR_PRIO_XID` whose data (shorter than `2 ^ 64`) holds no comma:
`find` returns `npos`, which wraps to 0 when incremented, so the effective XID is the whole data
and so is the payload; an iteration that completes appends `15,<data>` (when `<data>` differs
from the previous XID) followed by `<data>`, and it completes whenever the capacity is at least
two or the request is not tagged `SR_PRIO_BUF`. -/
theorem alt_xid_without_comma (xid mx : Str) (cap : Nat) (e : SrNews)
    (hx : e.prio &&& SR_PRIO_XID ≠ 0) (hc : ',' ∉ e.data) (hl : e.data.length < SIZE_MOD) :
    find e.data ',' = npos ∧ (npos + 1) % SIZE_MOD = 0 ∧
    splitXid xid e = some (e.data, 0) ∧
    stepLines xid mx e = (if e.data ≠ mx then [ctxTag ++ e.data] else []) ++ [e.data] ∧
    (∀ st st1, aggStep xid cap e st = some st1 →
      st1.s = st.s ++ ((if e.data ≠ st.myxid then ctxTag ++ e.data ++ ['\n'] else [])
        ++ (e.data ++ ['\n']))) ∧
    (2 ≤ cap ∨ e.prio &&& SR_PRIO_BUF = 0 → ∀ st, ∃ st1, aggStep xid cap e st = some st1) := by
  have hf : find e.data ',' = npos := findFrom_not_mem ',' e.data 0 hc
  have hw : (npos + 1) % SIZE_MOD = 0 := by decide
  have ht : ∀ l : Str, l.length ≤ e.data.length → l.take npos = l := by
    intro l hle
    apply List.take_of_length_le
    simp only [SIZE_MOD] at hl
    simp only [npos]
    omega
  have hcx : cxidOf xid e = e.data := by
    simp only [cxidOf, hx, ne_eq, not_false_eq_true, if_true, hf]
    exact ht _ (le_refl _)
  have hpos : posOf e = 0 := by
    simp only [posOf, hx, ne_eq, not_false_eq_true, if_true, hf, hw]
  have hpay : payloadOf e = e.data := by
    simp only [payloadOf, hpos, List.drop_zero]
    exact ht _ (le_refl _)
  have hsl : ∀ y, stepLines xid y e = (if e.data ≠ y then [ctxTag ++ e.data] else []) ++ [e.data] := by
    intro y; simp [stepLines, hcx, hpay]
  refine ⟨hf, hw, ?_, hsl mx, ?_, ?_⟩
  · rw [splitXid_eq, hcx, hpos]
  · intro st st1 h
    rw [aggStep_eq] at h
    cases hi : insertAll cap st.buf
        (if e.prio &&& SR_PRIO_BUF ≠ 0 then stepLines xid st.myxid e else []) with
    | none => rw [hi] at h; simp at h
    | some b =>
      rw [hi] at h
      simp only [Option.map_some', Option.some.injEq] at h
      rw [← h, hsl]
      by_cases hd : e.data = st.myxid <;> simp [hd, textOf]
  · intro hcap st
    rw [aggStep_eq]
    rcases hcap with h2 | hb
    · obtain ⟨b, hb⟩ := Option.isSome_iff_exists.mp (insertAll_isSome cap h2 st.buf
        (if e.prio &&& SR_PRIO_BUF ≠ 0 then stepLines xid st.myxid e else []))
      rw [hb]
      exact ⟨_, rfl⟩
    · simp [hb, insertAll]

/-- Witness of C20: the request `Y` with `SR_PRIO_XID` yields the lines `15,Y` and `Y`. -/
theorem alt_xid_without_comma_witness :
    stepLines ['X'] [] ⟨['Y'], SR_PRIO_XID⟩
      = (if ['Y'] ≠ ([] : Str) then [ctxTag ++ ['Y']] else []) ++ [['Y']] :=
  (alt_xid_without_comma ['X'] [] 10 ⟨['Y'], SR_PRIO_XID⟩ (by decide) (by decide)
    (by decide)).2.2.2.1

/-! ## C11, C19 : the quiesced reporter -/

theorem cycle_sleeping (NUM R : Nat) (rep : SrReporter) (hs : rep.sleeping = true) :
    cycle NUM R rep =
      (insertAll rep.cap rep.buffer (bufLines rep.xid [] (rep.out.take NUM))).map fun b =>
        { rep with buffer := b, out := rep.out.drop NUM } := by
  unfold cycle
  rw [gather_eq]
  cases insertAll rep.cap rep.buffer (bufLines rep.xid [] (rep.out.take NUM)) with
  | none => rfl
  | some b => simp [hs]

/-- C11. In a cycle with the sleeping flag set: whatever the queue holds, the cycle, when it
completes, leaves the transport untouched (no post), sleeps not, puts nothing on the ingress
queue and does not clear the replay buffer, which changes only through the `_insert` calls of the
drained requests; the batch text holds the lines of the drained requests only, none of the replay
buffer.  The cycle completes for every capacity of at least two. -/
theorem quiesced_sends_nothing (NUM R : Nat) (rep : SrReporter) (hs : rep.sleeping = true) :
    (∀ rep1, cycle NUM R rep = some rep1 →
      rep1.http = rep.http ∧ rep1.http.posted = rep.http.posted ∧ rep1.slept = rep.slept ∧
      rep1.inq = rep.inq ∧
      insertAll rep.cap rep.buffer (bufLines rep.xid [] (rep.out.take NUM)) = some rep1.buffer ∧
      (rep.buffer.length + (bufLines rep.xid [] (rep.out.take NUM)).length ≤ rep.cap →
        rep1.buffer = rep.buffer ++ bufLines rep.xid [] (rep.out.take NUM))) ∧
    (∀ b, batch NUM rep = some b → b = textOf (msgLines rep.xid [] (rep.out.take NUM))) ∧
    (2 ≤ rep.cap → ∃ rep1, cycle NUM R rep = some rep1) := by
  have hc := cycle_sleeping NUM R rep hs
  refine ⟨?_, ?_, ?_⟩
  · intro rep1 h1
    rw [hc] at h1
    cases hi : insertAll rep.cap rep.buffer (bufLines rep.xid [] (rep.out.take NUM)) with
    | none => rw [hi] at h1; simp at h1
    | some b =>
      rw [hi] at h1
      simp only [Option.map_some', Option.some.injEq] at h1
      subst h1
      refine ⟨rfl, rfl, rfl, rfl, rfl, ?_⟩
      intro hroom
      rw [insertAll_below _ _ _ hroom] at hi
      exact (Option.some.inj hi).symm
  · intro b hb
    unfold batch at hb
    rw [gather_eq] at hb
    cases hi : insertAll rep.cap rep.buffer (bufLines rep.xid [] (rep.out.take NUM)) with
    | none => rw [hi] at hb; simp at hb
    | some b1 =>
      rw [hi] at hb
      simp only [Option.map_some', Option.some.injEq] at hb
      rw [← hb]
      simp [replayText, hs]
  · intro h2
    rw [hc]
    obtain ⟨b, hb⟩ := Option.isSome_iff_exists.mp
      (insertAll_isSome rep.cap h2 rep.buffer (bufLines rep.xid [] (rep.out.take NUM)))
    rw [hb]
    exact ⟨_, rfl⟩

/-- Witness of C11: the quiesced `idleRep` completes its cycle. -/
theorem quiesced_sends_nothing_witness : ∃ rep1, cycle 32 3 idleRep = some rep1 :=
  (quiesced_sends_nothing 32 3 idleRep rfl).2.2 (by decide)

/-- C14, evaluated on `orphanRep` (empty replay buffer, device XID `X`, capacity 1000, server
down): the request `A` switches to the XID `X` but is not tagged `SR_PRIO_BUF`, so `15,X` is not
buffered; the tagged request `B` of the same XID is buffered alone.  The replay buffer at the end
of the cycle is `["B"]`: a payload line with no context line ahead of it. -/
theorem orphan_payload_buffered :
    (cycle 32 3 orphanRep).map (fun r => r.buffer) = some [['B']] ∧
      isCtx ['B'] = false ∧ (ctxTag ++ ['X']) ∉ [['B']] ∧
      batch 32 orphanRep = some "15,X\nA\nB\n".toList := by
  decide

/-! ## C15 : the context line ahead of each emitted payload -/

theorem splitLines_cons_ne_nil (c : Char) (cs : Str) : splitLines (c :: cs) ≠ [] := by
  rw [splitLines]
  split
  · simp
  · split <;> simp

theorem splitLines_cons (c : Char) (cs : Str) :
    splitLines (c :: cs) =
      if c = '\n' then [] :: splitLines cs
      else
        match splitLines cs with
        | [] => [[c]]
        | l :: ls => (c :: l) :: ls := by
  rw [splitLines]

theorem splitLines_line (l rest : Str) (h : '\n' ∉ l) :
    splitLines (l ++ '\n' :: rest) = l :: splitLines rest := by
  induction l with
  | nil => simp [splitLines_cons]
  | cons c l ih =>
    have hc : ¬ c = '\n' := fun e => h (by simp [e])
    have hl : '\n' ∉ l := fun e => h (List.mem_cons_of_mem _ e)
    rw [List.cons_append, splitLines_cons, ih hl]
    simp [hc]

theorem splitLines_any_line (l rest : Str) :
    splitLines (l ++ '\n' :: rest) = splitLines (l ++ ['\n']) ++ splitLines rest := by
  induction l with
  | nil => simp [splitLines_cons, splitLines]
  | cons c l ih =>
    rw [List.cons_append, List.cons_append, splitLines_cons, splitLines_cons c, ih]
    by_cases hc : c = '\n'
    · simp [hc]
    · simp only [hc, if_false]
      cases hs : splitLines (l ++ ['\n']) with
      | nil =>
        cases l with
        | nil => simp [splitLines_cons] at hs
        | cons a as => exact absurd hs (splitLines_cons_ne_nil a _)
      | cons x xs => simp

theorem splitLines_textOf_append (buf : List Str) (rest : Str) :
    splitLines (textOf buf ++ rest) = splitLines (textOf buf) ++ splitLines rest := by
  induction buf with
  | nil => simp [textOf, splitLines]
  | cons l ls ih =>
    have e1 : textOf (l :: ls) ++ rest = l ++ '\n' :: (textOf ls ++ rest) := by simp [textOf]
    have e2 : textOf (l :: ls) = l ++ '\n' :: textOf ls := by simp [textOf]
    rw [e1, e2, splitLines_any_line, splitLines_any_line l (textOf ls), ih, List.append_assoc]

theorem splitLines_textOf (ls : List Str) (h : ∀ l ∈ ls, '\n' ∉ l) :
    splitLines (textOf ls) = ls := by
  induction ls with
  | nil => simp [textOf, splitLines]
  | cons l ls ih =>
    have e2 : textOf (l :: ls) = l ++ '\n' :: textOf ls := by simp [textOf]
    rw [e2, splitLines_line l _ (h l (List.mem_cons_self _ _)),
      ih (fun x hx => h x (List.mem_cons_of_mem _ hx))]

theorem lastCtx_concat (ls : List Str) (x : Str) :
    lastCtx (ls ++ [x]) = if isCtx x = true then some x else lastCtx ls := by
  unfold lastCtx
  by_cases hx : isCtx x = true
  · simp [List.filter_append, hx]
  · simp [List.filter_append, hx]

theorem isCtx_tag (c : Str) : isCtx (ctxTag ++ c) = true := by
  simp [isCtx, ctxTag]

theorem msgLines_append (xid : Str) (ms1 ms2 : List SrNews) :
    ∀ mx, msgLines xid mx (ms1 ++ ms2)
      = msgLines xid mx ms1 ++ msgLines xid (lastXid xid mx ms1) ms2 := by
  induction ms1 with
  | nil => intro mx; simp [msgLines, lastXid]
  | cons a as ih => intro mx; simp [msgLines, lastXid, ih]

theorem mem_msgLines (xid : Str) (es : List SrNews) :
    ∀ (mx l : Str), l ∈ msgLines xid mx es →
      ∃ e ∈ es, l = payloadOf e ∨ l = ctxTag ++ cxidOf xid e := by
  induction es with
  | nil => intro mx l h; simp [msgLines] at h
  | cons a as ih =>
    intro mx l h
    simp only [msgLines, List.mem_append] at h
    rcases h with h | h
    · refine ⟨a, List.mem_cons_self _ _, ?_⟩
      simp only [stepLines, List.mem_append, List.mem_singleton] at h
      rcases h with h | h
      · right
        by_cases hx : cxidOf xid a = mx
        · simp [hx] at h
        · simpa [hx] using h
      · left; exact h
    · obtain ⟨e, he, hl⟩ := ih _ l h
      exact ⟨e, List.mem_cons_of_mem _ he, hl⟩

theorem lastCtx_step (xid : Str) (base : List Str) (mx : Str) (e : SrNews)
    (hinv : mx = [] ∨ lastCtx base = some (ctxTag ++ mx)) (hne : cxidOf xid e ≠ []) :
    lastCtx (base ++ (if cxidOf xid e ≠ mx then [ctxTag ++ cxidOf xid e] else []))
      = some (ctxTag ++ cxidOf xid e) := by
  by_cases hx : cxidOf xid e = mx
  · rcases hinv with h | h
    · exact absurd (hx.trans h) hne
    · simp [hx, h]
  · simp only [ne_eq, hx, not_false_eq_true, if_true]
    rw [lastCtx_concat, isCtx_tag]
    simp

theorem lastCtx_msgLines (xid : Str) (ms : List SrNews) :
    ∀ (base : List Str) (mx : Str), (mx = [] ∨ lastCtx base = some (ctxTag ++ mx)) →
      (∀ e ∈ ms, cxidOf xid e ≠ []) → (∀ e ∈ ms, isCtx (payloadOf e) = false) →
      (lastXid xid mx ms = [] ∨
        lastCtx (base ++ msgLines xid mx ms) = some (ctxTag ++ lastXid xid mx ms)) := by
  induction ms with
  | nil => intro base mx hinv _ _; simpa [msgLines, lastXid] using hinv
  | cons a as ih =>
    intro base mx hinv hne hpay
    have h1 := lastCtx_step xid base mx a hinv (hne a (List.mem_cons_self _ _))
    have h2 : lastCtx (base ++ stepLines xid mx a) = some (ctxTag ++ cxidOf xid a) := by
      unfold stepLines
      rw [← List.append_assoc, lastCtx_concat, hpay a (List.mem_cons_self _ _)]
      simpa using h1
    have := ih (base ++ stepLines xid mx a) (cxidOf xid a) (Or.inr h2)
      (fun e he => hne e (List.mem_cons_of_mem _ he))
      (fun e he => hpay e (List.mem_cons_of_mem _ he))
    simpa [msgLines, lastXid, List.append_assoc] using this

/-- C15, as stated, fails for an empty device XID: `noXidRep` replays `15,Z` and `Q` and then
emits `A`, whose effective XID is empty like the initial `myxid`, with no context line of its
own; the nearest context line ahead of `A` in the batch is `15,Z`, not `15,` followed by the
(empty) XID of `A`. -/
theorem own_context_counterexample :
    batch 32 noXidRep = some "15,Z\nQ\nA\n".toList ∧
      splitLines "15,Z\nQ\nA\n".toList = ["15,Z".toList, ['Q']] ++ payloadOf ⟨['A'], 0⟩ :: [] ∧
      '\n' ∉ payloadOf ⟨['A'], 0⟩ ∧ isCtx (payloadOf ⟨['A'], 0⟩) = false ∧
      lastCtx ["15,Z".toList, ['Q']] = some "15,Z".toList ∧
      lastCtx ["15,Z".toList, ['Q']] ≠ some (ctxTag ++ cxidOf noXidRep.xid ⟨['A'], 0⟩) := by
  decide

/-- C15, amended. For every replay buffer content, every device XID and every list of drained
requests whose payloads and effective XIDs contain no newline, whose payloads do not start with
`15,` and whose effective XIDs are not empty: in the list of lines of the batch built by a cycle
that is not sleeping, the nearest context line ahead of the payload line of each drained request
`e` is `15,` followed by the effective XID of `e` (the lines after that payload line being those
of the requests drained after `e`).  The batch is built for every capacity of at least two. -/
theorem message_under_own_context (NUM : Nat) (rep : SrReporter) (hs : rep.sleeping = false)
    (hnl : ∀ e ∈ rep.out.take NUM, '\n' ∉ payloadOf e ∧ '\n' ∉ cxidOf rep.xid e)
    (hpay : ∀ e ∈ rep.out.take NUM, isCtx (payloadOf e) = false)
    (hne : ∀ e ∈ rep.out.take NUM, cxidOf rep.xid e ≠ []) :
    (∀ b, batch NUM rep = some b → ∀ ms1 e ms2, rep.out.take NUM = ms1 ++ e :: ms2 →
      ∃ pre, splitLines b = pre ++ payloadOf e :: msgLines rep.xid (cxidOf rep.xid e) ms2 ∧
        lastCtx pre = some (ctxTag ++ cxidOf rep.xid e)) ∧
    (2 ≤ rep.cap → ∃ b, batch NUM rep = some b) := by
  have hg := gather_eq NUM rep
  refine ⟨?_, ?_⟩
  · intro b hb ms1 e ms2 hsplit
    unfold batch at hb
    rw [hg] at hb
    cases hi : insertAll rep.cap rep.buffer (bufLines rep.xid [] (rep.out.take NUM)) with
    | none => rw [hi] at hb; simp at hb
    | some b1 =>
      rw [hi] at hb
      simp only [Option.map_some', Option.some.injEq] at hb
      have hrt : replayText rep.sleeping rep.buffer = textOf rep.buffer := by
        simp [replayText, hs, textOf]
      have hfree : ∀ l ∈ msgLines rep.xid [] (rep.out.take NUM), '\n' ∉ l := by
        intro l hl
        obtain ⟨m, hm, h | h⟩ := mem_msgLines rep.xid _ [] l hl
        · rw [h]; exact (hnl m hm).1
        · rw [h]
          have := (hnl m hm).2
          simp [ctxTag, this]
      have hlines : splitLines b
          = splitLines (textOf rep.buffer) ++ msgLines rep.xid [] (rep.out.take NUM) := by
        rw [← hb, hrt, splitLines_textOf_append, splitLines_textOf _ hfree]
      have hmem1 : ∀ m ∈ ms1, m ∈ rep.out.take NUM := by
        intro m hm; rw [hsplit]; exact List.mem_append_left _ hm
      have hmemE : e ∈ rep.out.take NUM := by
        rw [hsplit]; exact List.mem_append_right _ (List.mem_cons_self _ _)
      have hinv := lastCtx_msgLines rep.xid ms1 (splitLines (textOf rep.buffer)) []
        (Or.inl rfl) (fun m hm => hne m (hmem1 m hm)) (fun m hm => hpay m (hmem1 m hm))
      have hlast := lastCtx_step rep.xid
        (splitLines (textOf rep.buffer) ++ msgLines rep.xid [] ms1) (lastXid rep.xid [] ms1) e
        hinv (hne e hmemE)
      refine ⟨_, ?_, hlast⟩
      rw [hlines, hsplit, msgLines_append]
      simp [msgLines, stepLines, List.append_assoc]
  · intro h2
    unfold batch
    rw [hg]
    obtain ⟨b1, hb1⟩ := Option.isSome_iff_exists.mp
      (insertAll_isSome rep.cap h2 rep.buffer (bufLines rep.xid [] (rep.out.take NUM)))
    rw [hb1]
    exact ⟨_, rfl⟩

/-- Witness of C15 amended on `ctxRep` (device XID `X`, requests `A`, `B` and `Y,C`). -/
theorem message_under_own_context_witness :
    (∀ b, batch 32 ctxRep = some b → ∀ ms1 e ms2, ctxRep.out.take 32 = ms1 ++ e :: ms2 →
      ∃ pre, splitLines b = pre ++ payloadOf e :: msgLines ctxRep.xid (cxidOf ctxRep.xid e) ms2 ∧
        lastCtx pre = some (ctxTag ++ cxidOf ctxRep.xid e)) ∧
    ∃ b, batch 32 ctxRep = some b :=
  ⟨(message_under_own_context 32 ctxRep rfl (by decide) (by decide) (by decide)).1,
    (message_under_own_context 32 ctxRep rfl (by decide) (by decide) (by decide)).2 (by decide)⟩

/-! ## C16 : every failure aborts the handshake -/

theorem integrateXid_abort (lexer : Str → SrRecord) (deviceID : Str) (self : Integrate)
    (h : SrNetHttp) (r : SrRecord) :
    ((integrateXid lexer deviceID self h r).1 = 0 ∨
      (integrateXid lexer deviceID self h r).1 = -1) ∧
    (shapeIs r 2 code20 = false →
      (integrateXid lexer deviceID self h r).1 = -1 ∧
      (integrateXid lexer deviceID self h r).2.2.posted = h.posted) ∧
    (shapeIs r 2 code20 = true →
      ((h.net h.calls).1 ≤ 0 →
        (integrateXid lexer deviceID self h r).1 = -1 ∧
        (integrateXid lexer deviceID self h r).2.2.posted = h.posted ++ [req300 deviceID]) ∧
      (0 < (h.net h.calls).1 →
        (headIs (lexer (h.net h.calls).2) code50 = false →
          shapeIs (lexer (h.net h.calls).2) 3 code800 = false →
          (integrateXid lexer deviceID self h r).1 = -1 ∧
          (integrateXid lexer deviceID self h r).2.2.posted = h.posted ++ [req300 deviceID]) ∧
        (headIs (lexer (h.net h.calls).2) code50 = true →
          ((h.net (h.calls + 1)).1 ≤ 0 →
            (integrateXid lexer deviceID self h r).1 = -1 ∧
            (integrateXid lexer deviceID self h r).2.2.posted
              = h.posted ++ [req300 deviceID, req301]) ∧
          (0 < (h.net (h.calls + 1)).1 →
            (shapeIs (lexer (h.net (h.calls + 1)).2) 3 code801 = false →
              (integrateXid lexer deviceID self h r).1 = -1 ∧
              (integrateXid lexer deviceID self h r).2.2.posted
                = h.posted ++ [req300 deviceID, req301]) ∧
            (shapeIs (lexer (h.net (h.calls + 1)).2) 3 code801 = true →
              (h.net (h.calls + 1 + 1)).1 ≤ 0 →
              (integrateXid lexer deviceID self h r).1 = -1 ∧
              (integrateXid lexer deviceID self h r).2.2.posted
                = h.posted ++ [req300 deviceID, req301,
                    req302 (field (lexer (h.net (h.calls + 1)).2) 2) deviceID]))))) := by
  refine ⟨?_, ?_, ?_⟩
  · unfold integrateXid integrateObject
    dsimp only
    split_ifs <;> simp
  · intro hs
    simp [integrateXid, hs]
  · intro hs
    refine ⟨?_, ?_⟩
    · intro hp
      simp [integrateXid, hs, SrNetHttp.post, SrNetHttp.clear, hp]
    · intro hp
      have np := not_le.mpr hp
      refine ⟨?_, ?_⟩
      · intro h50 h800
        simp [integrateXid, integrateObject, hs, SrNetHttp.post, SrNetHttp.clear, np, h50, h800]
      · intro h50
        refine ⟨?_, ?_⟩
        · intro hp1
          simp [integrateXid, integrateObject, hs, SrNetHttp.post, SrNetHttp.clear, np, h50, hp1]
        · intro hp1
          have np1 := not_le.mpr hp1
          refine ⟨?_, ?_⟩
          · intro h801
            simp [integrateXid, integrateObject, hs, SrNetHttp.post, SrNetHttp.clear, np, h50,
              np1, h801]
          · intro h801 hp2
            simp [integrateXid, integrateObject, hs, SrNetHttp.post, SrNetHttp.clear, np, h50,
              np1, h801, hp2]

theorem integrate_eq (lexer : Str → SrRecord) (net : Nat → Int × Str) (deviceID srt : Str)
    (self : Integrate) :
    integrate lexer net deviceID srt self =
      if (net 0).1 < 0 then (-1, self, ⟨net, 1, (net 0).2, [[]]⟩)
      else if headIs (lexer (net 0).2) code40 = true then
        if (net 1).1 ≤ 0 then (-1, self, ⟨net, 2, (net 1).2, [[], srt]⟩)
        else integrateXid lexer deviceID self ⟨net, 2, (net 1).2, [[], srt]⟩ (lexer (net 1).2)
      else integrateXid lexer deviceID self ⟨net, 1, (net 0).2, [[]]⟩ (lexer (net 0).2) := by
  rfl

/-- C16. For every behaviour of the transport and of the tokenizer, `integrate` returns 0 or -1,
and it returns -1 with no request posted after the failing step when: the probe post returns
`< 0`; the template post returns `≤ 0`; the record read after the probe (or after the template
post) is not a two-field record with first field `20`; the post of `300,<deviceID>` returns
`≤ 0`; the record answering it has neither first field `50` nor three fields with first field
`800`; the post of `301` returns `≤ 0`; the record answering it is not a three-field record with
first field `801`; the binding post returns `≤ 0`.  In each case the bodies posted are exactly
those up to the failing step. -/
theorem handshake_aborts (lexer : Str → SrRecord) (net : Nat → Int × Str) (deviceID srt : Str)
    (self : Integrate) :
    ((integrate lexer net deviceID srt self).1 = 0 ∨ (integrate lexer net deviceID srt self).1 = -1) ∧
    ((net 0).1 < 0 → (integrate lexer net deviceID srt self).1 = -1 ∧ (integrate lexer net deviceID srt self).2.2.posted = [[]]) ∧
    (0 ≤ (net 0).1 → headIs (lexer (net 0).2) code40 = true → (net 1).1 ≤ 0 →
      (integrate lexer net deviceID srt self).1 = -1 ∧ (integrate lexer net deviceID srt self).2.2.posted = [[], srt]) ∧
    (0 ≤ (net 0).1 → (headIs (lexer (net 0).2) code40 = true → 0 < (net 1).1) →
      (shapeIs (xidRecord lexer net) 2 code20 = false →
        (integrate lexer net deviceID srt self).1 = -1 ∧ (integrate lexer net deviceID srt self).2.2.posted = probeBodies lexer net srt) ∧
      (shapeIs (xidRecord lexer net) 2 code20 = true →
        ((net (xidCalls lexer net)).1 ≤ 0 →
          (integrate lexer net deviceID srt self).1 = -1 ∧ (integrate lexer net deviceID srt self).2.2.posted = probeBodies lexer net srt ++ [req300 deviceID]) ∧
        (0 < (net (xidCalls lexer net)).1 →
          (headIs (lexer (net (xidCalls lexer net)).2) code50 = false →
            shapeIs (lexer (net (xidCalls lexer net)).2) 3 code800 = false →
            (integrate lexer net deviceID srt self).1 = -1 ∧ (integrate lexer net deviceID srt self).2.2.posted = probeBodies lexer net srt ++ [req300 deviceID]) ∧
          (headIs (lexer (net (xidCalls lexer net)).2) code50 = true →
            ((net (xidCalls lexer net + 1)).1 ≤ 0 →
              (integrate lexer net deviceID srt self).1 = -1 ∧ (integrate lexer net deviceID srt self).2.2.posted = probeBodies lexer net srt ++ [req300 deviceID, req301]) ∧
            (0 < (net (xidCalls lexer net + 1)).1 →
              (shapeIs (lexer (net (xidCalls lexer net + 1)).2) 3 code801 = false →
                (integrate lexer net deviceID srt self).1 = -1 ∧ (integrate lexer net deviceID srt self).2.2.posted = probeBodies lexer net srt ++ [req300 deviceID, req301]) ∧
              (shapeIs (lexer (net (xidCalls lexer net + 1)).2) 3 code801 = true →
                (net (xidCalls lexer net + 1 + 1)).1 ≤ 0 →
                (integrate lexer net deviceID srt self).1 = -1 ∧
                (integrate lexer net deviceID srt self).2.2.posted = probeBodies lexer net srt ++ [req300 deviceID, req301,
                  req302 (field (lexer (net (xidCalls lexer net + 1)).2) 2) deviceID])))))) := by
  rw [integrate_eq]
  by_cases hp0 : (net 0).1 < 0
  · have n0 : ¬ 0 ≤ (net 0).1 := not_le.mpr hp0
    simp [hp0, n0]
  · by_cases h40 : headIs (lexer (net 0).2) code40 = true
    · have hk : xidCalls lexer net = 2 := by simp [xidCalls, h40]
      have hpre : probeBodies lexer net srt = [[], srt] := by simp [probeBodies, h40]
      have hrec : xidRecord lexer net = lexer (net 1).2 := by simp [xidRecord, h40]
      by_cases hp1 : (net 1).1 ≤ 0
      · have n1 : ¬ 0 < (net 1).1 := not_lt.mpr hp1
        simp [hp0, h40, hp1, n1]
      · have key := integrateXid_abort lexer deviceID self ⟨net, 2, (net 1).2, [[], srt]⟩
          (lexer (net 1).2)
        rw [if_neg hp0, if_pos h40, if_neg hp1, hk, hpre, hrec]
        exact ⟨key.1, fun h => absurd h hp0, fun _ _ h => absurd h hp1,
          fun _ _ => ⟨key.2.1, key.2.2⟩⟩
    · have hk : xidCalls lexer net = 1 := by simp [xidCalls, h40]
      have hpre : probeBodies lexer net srt = [[]] := by simp [probeBodies, h40]
      have hrec : xidRecord lexer net = lexer (net 0).2 := by simp [xidRecord, h40]
      have key := integrateXid_abort lexer deviceID self ⟨net, 1, (net 0).2, [[]]⟩
        (lexer (net 0).2)
      rw [if_neg hp0, if_neg h40, hk, hpre, hrec]
      exact ⟨key.1, fun h => absurd h hp0, fun _ h => absurd h h40,
        fun _ _ => ⟨key.2.1, key.2.2⟩⟩

/-- Witness of C16, scenario (c): the record answering `300,<deviceID>` has the unrecognised
code `99`; `integrate` returns -1 having posted the probe and that request only. -/
theorem handshake_aborts_witness :
    (integrate lineLexer netC ['d'] ['t'] ⟨[], []⟩).1 = -1 ∧
      (integrate lineLexer netC ['d'] ['t'] ⟨[], []⟩).2.2.posted
        = probeBodies lineLexer netC ['t'] ++ [req300 ['d']] :=
  ((((handshake_aborts lineLexer netC ['d'] ['t'] ⟨[], []⟩).2.2.2 (by decide)
    (by decide)).2 (by decide)).2 (by decide)).1 (by decide) (by decide)

end C8y
